import Mathlib

/-!
# GXHTC3 humidity/temperature sensor driver: a verification development

A shallow embedding of `gxhtc3.c` / `gxhtc3.h`.

* Machine integers are natural numbers; every store into a `uint8_t` or
  `uint16_t` object is an explicit `% 256` or `% 65536`.
* The I2C transport (`HAL_I2C_Master_Transmit`, `HAL_I2C_Master_Receive`,
  `HAL_I2C_IsDeviceReady`) and the delay primitive are collaborators.  Every
  call to one of them is appended to a trace, and the transport's answer is an
  arbitrary function of the calls made so far and of the current call.
* A driver function takes the transport and the trace so far, and returns its
  C result together with the extended trace (and the contents of its output
  parameter, when it has one).
-/

namespace GXHTC3

/-! ## Constants of `gxhtc3.h` -/

def GXHTC3_I2C_ADDR_7BIT : Nat := 0x70
def GXHTC3_I2C_ADDR_WRITE : Nat := (GXHTC3_I2C_ADDR_7BIT <<< 1) ||| 0x00
def GXHTC3_I2C_ADDR_READ : Nat := (GXHTC3_I2C_ADDR_7BIT <<< 1) ||| 0x01

def GXHTC3_CMD_WAKEUP : Nat := 0x3517
def GXHTC3_CMD_SLEEP : Nat := 0xB098
def GXHTC3_CMD_SOFT_RESET : Nat := 0x805D
def GXHTC3_CMD_READ_ID : Nat := 0xEFC8
def GXHTC3_CMD_MEASURE_HUM : Nat := 0x5C24
def GXHTC3_CMD_MEASURE_TEMP : Nat := 0x7CA2

def GXHTC3_WAKEUP_DELAY_US : Nat := 50
def GXHTC3_MEASURE_DELAY_MS : Nat := 12
def GXHTC3_I2C_TIMEOUT_MS : Nat := 1000

/-! ## Status values and the transport -/

/-- Modelled from the spec: the outcome type `HAL_StatusTypeDef` of a bus
transaction is declared in the vendor HAL header, which is not among the
sources.  The spec's `ok|error` outcome is taken with the four values that
header gives it; `HAL_OK` is the only success value. -/
inductive HAL_StatusTypeDef where
  | HAL_OK
  | HAL_ERROR
  | HAL_BUSY
  | HAL_TIMEOUT
  deriving DecidableEq, Repr

open HAL_StatusTypeDef

/-- One call to a collaborator, with the arguments the driver passes. -/
inductive Call where
  /-- A call `HAL_I2C_Master_Transmit(hi2c, addr, pData, Size, Timeout)`. -/
  | transmit (addr : Nat) (pData : List Nat) (size : Nat) (timeout : Nat)
  /-- A call `HAL_I2C_Master_Receive(hi2c, addr, pData, Size, Timeout)`. -/
  | receive (addr : Nat) (size : Nat) (timeout : Nat)
  /-- A call `HAL_I2C_IsDeviceReady(hi2c, addr, Trials, Timeout)`. -/
  | isDeviceReady (addr : Nat) (trials : Nat) (timeout : Nat)
  /-- A call `HAL_Delay_us(us)`. -/
  | delay_us (us : Nat)
  deriving DecidableEq, Repr

/-- What the transport answers to one call: the status it returns and, for a
receive, the bytes it stores into the caller's buffer. -/
structure Reply where
  status : HAL_StatusTypeDef
  data : List Nat
  deriving DecidableEq, Repr

/-- A transport behaviour: the answer to a call may depend on every call made
before it. -/
abbrev Transport := List Call → Call → Reply

/-- The receive buffer after the transport has stored `data` into it: at most
`size` bytes are written from the start of the buffer, each truncated to 8
bits, and the bytes behind them keep their contents. -/
def storeBytes (buf : List Nat) (data : List Nat) (size : Nat) : List Nat :=
  let written := (data.take (min size buf.length)).map (fun b => b % 256)
  written ++ buf.drop written.length

def HAL_I2C_Master_Transmit (env : Transport) (tr : List Call)
    (addr : Nat) (pData : List Nat) (size : Nat) (timeout : Nat) :
    HAL_StatusTypeDef × List Call :=
  let c := Call.transmit addr pData size timeout
  ((env tr c).status, tr ++ [c])

def HAL_I2C_Master_Receive (env : Transport) (tr : List Call)
    (addr : Nat) (pData : List Nat) (size : Nat) (timeout : Nat) :
    HAL_StatusTypeDef × List Nat × List Call :=
  let c := Call.receive addr size timeout
  ((env tr c).status, storeBytes pData (env tr c).data size, tr ++ [c])

def HAL_I2C_IsDeviceReady (env : Transport) (tr : List Call)
    (addr : Nat) (trials : Nat) (timeout : Nat) :
    HAL_StatusTypeDef × List Call :=
  let c := Call.isDeviceReady addr trials timeout
  ((env tr c).status, tr ++ [c])

/-- The delay primitive.  Its body is a busy wait on the hardware tick counter;
the embedding records the call and the requested number of microseconds. -/
def HAL_Delay_us (tr : List Call) (us : Nat) : List Call :=
  tr ++ [Call.delay_us us]

/-! ## `float` arithmetic

A finite `float` value is the rational number it denotes.  Each `float`
operation computes the exact rational result and rounds it to the nearest
binary32 value, ties to even (IEEE 754 single precision, every intermediate
result held in `float`).  Infinities, NaN and the sign of zero are not
represented: every value the driver computes is finite. -/

/-- Round to the nearest integer, ties to the even one. -/
def roundHalfEven (x : ℚ) : Int :=
  let f := ⌊x⌋
  if x - f < 1 / 2 then f
  else if 1 / 2 < x - f then f + 1
  else if f % 2 = 0 then f else f + 1

/-- Round `q` to a binary floating-point format with `p` significand bits and
least normal exponent `emin`: the spacing of the format around `q` is
`2 ^ (e - (p - 1))` where `2 ^ e ≤ |q| < 2 ^ (e + 1)` (and `e` is `emin` in the
subnormal range), and `q` goes to the nearest multiple of it, ties to even. -/
def fpRound (p : Nat) (emin : Int) (q : ℚ) : ℚ :=
  let e : Int := max (Int.log 2 |q|) emin
  let ulp : ℚ := 2 ^ (e - ((p : Int) - 1))
  roundHalfEven (q / ulp) * ulp

/-- Rounding to `float` (binary32). -/
def f32Round (q : ℚ) : ℚ := fpRound 24 (-126) q

/-- The conversion `(float)n` of an unsigned integer. -/
def f32OfNat (n : Nat) : ℚ := f32Round n

def f32Mul (a b : ℚ) : ℚ := f32Round (a * b)

def f32Div (a b : ℚ) : ℚ := f32Round (a / b)

def f32Sub (a b : ℚ) : ℚ := f32Round (a - b)

/-! ## `GXHTC3_CheckCRC` -/

/-- One pass of the inner loop body of `GXHTC3_CheckCRC` on the `uint8_t`
accumulator `crc_calc`. -/
def crcShift (crc_calc : Nat) : Nat :=
  if crc_calc &&& 0x80 ≠ 0 then ((crc_calc <<< 1) ^^^ 0x31) % 256
  else (crc_calc <<< 1) % 256

/-- The inner loop `for (j = 0; j < 8; j++)`. -/
def crcBits (crc_calc : Nat) : Nat :=
  (List.range 8).foldl (fun c _ => crcShift c) crc_calc

/-- The accumulator of `GXHTC3_CheckCRC` after the outer loop over `data[0]`
and `data[1]`. -/
def crcCalc (data : List Nat) : Nat :=
  (List.range 2).foldl (fun c i => crcBits ((c ^^^ data.getD i 0) % 256)) 0xFF

def GXHTC3_CheckCRC (data : List Nat) (crc : Nat) : HAL_StatusTypeDef :=
  if crcCalc data = crc then HAL_OK else HAL_ERROR

/-! ## `GXHTC3_SendCmd` -/

/-- The two bytes of `cmd_buf`. -/
def cmdBuf (cmd : Nat) : List Nat :=
  [(cmd >>> 8) % 256, (cmd &&& 0xFF) % 256]

def GXHTC3_SendCmd (env : Transport) (tr : List Call) (cmd : Nat) :
    HAL_StatusTypeDef × List Call :=
  HAL_I2C_Master_Transmit env tr GXHTC3_I2C_ADDR_WRITE (cmdBuf cmd) 2
    GXHTC3_I2C_TIMEOUT_MS

/-! ## The public operations -/

def GXHTC3_Init (env : Transport) (tr : List Call) (sensor_id : Option (List Nat)) :
    HAL_StatusTypeDef × Option (List Nat) × List Call :=
  let id_buf : List Nat := [0, 0, 0]
  let (status, tr) := GXHTC3_SendCmd env tr GXHTC3_CMD_WAKEUP
  if status ≠ HAL_OK then (status, sensor_id, tr) else
  let tr := HAL_Delay_us tr GXHTC3_WAKEUP_DELAY_US
  let (status, tr) :=
    HAL_I2C_IsDeviceReady env tr GXHTC3_I2C_ADDR_WRITE 3 GXHTC3_I2C_TIMEOUT_MS
  if status ≠ HAL_OK then (status, sensor_id, tr) else
  match sensor_id with
  | none => (HAL_OK, none, tr)
  | some id =>
    let (status, tr) := GXHTC3_SendCmd env tr GXHTC3_CMD_READ_ID
    if status ≠ HAL_OK then (status, some id, tr) else
    let (status, id_buf, tr) :=
      HAL_I2C_Master_Receive env tr GXHTC3_I2C_ADDR_READ id_buf 3 GXHTC3_I2C_TIMEOUT_MS
    if status ≠ HAL_OK then (status, some id, tr) else
    let status := GXHTC3_CheckCRC (id_buf.drop 0) (id_buf.getD 2 0)
    if status ≠ HAL_OK then (HAL_ERROR, some id, tr) else
    (HAL_OK, some ((id.set 0 (id_buf.getD 0 0)).set 1 (id_buf.getD 1 0)), tr)

/-- The output structure `GXHTC3_DataTypedef`. -/
structure GXHTC3_DataTypedef where
  humidity : ℚ
  temperature : ℚ
  is_valid : Nat
  deriving DecidableEq, Repr

def GXHTC3_EnterSleep (env : Transport) (tr : List Call) :
    HAL_StatusTypeDef × List Call :=
  GXHTC3_SendCmd env tr GXHTC3_CMD_SLEEP

/-- The 16-bit raw code assembled from two buffer bytes:
`(uint16_t)(msb << 8U) | lsb`, stored into a `uint16_t`. -/
def rawCode (msb lsb : Nat) : Nat :=
  (((msb <<< 8) % 65536) ||| lsb) % 65536

/-- The humidity conversion `(float)hum_raw * 100.0f / 65535.0f`. -/
def humidityOfRaw (hum_raw : Nat) : ℚ :=
  f32Div (f32Mul (f32OfNat hum_raw) 100) 65535

/-- The temperature conversion `(float)temp_raw * 175.0f / 65535.0f - 45.0f`. -/
def temperatureOfRaw (temp_raw : Nat) : ℚ :=
  f32Sub (f32Div (f32Mul (f32OfNat temp_raw) 175) 65535) 45

/-- The code at the label `exit_fail` of `GXHTC3_ReadHumidityTemp`. -/
def exit_fail (env : Transport) (tr : List Call) (data : GXHTC3_DataTypedef)
    (status : HAL_StatusTypeDef) :
    HAL_StatusTypeDef × GXHTC3_DataTypedef × List Call :=
  let data := { data with is_valid := 0 }
  let (_, tr) := GXHTC3_EnterSleep env tr
  (status, data, tr)

def GXHTC3_ReadHumidityTemp (env : Transport) (tr : List Call)
    (data : GXHTC3_DataTypedef) :
    HAL_StatusTypeDef × GXHTC3_DataTypedef × List Call :=
  let raw_data : List Nat := [0, 0, 0, 0, 0, 0]
  let (status, tr) := GXHTC3_SendCmd env tr GXHTC3_CMD_WAKEUP
  if status ≠ HAL_OK then exit_fail env tr data status else
  let tr := HAL_Delay_us tr GXHTC3_WAKEUP_DELAY_US
  let (status, tr) := GXHTC3_SendCmd env tr GXHTC3_CMD_MEASURE_HUM
  if status ≠ HAL_OK then exit_fail env tr data status else
  let (status, raw_data, tr) :=
    HAL_I2C_Master_Receive env tr GXHTC3_I2C_ADDR_READ raw_data 6 GXHTC3_I2C_TIMEOUT_MS
  if status ≠ HAL_OK then exit_fail env tr data status else
  let status := GXHTC3_CheckCRC (raw_data.drop 0) (raw_data.getD 2 0)
  if status ≠ HAL_OK then exit_fail env tr data status else
  let status := GXHTC3_CheckCRC (raw_data.drop 3) (raw_data.getD 5 0)
  if status ≠ HAL_OK then exit_fail env tr data status else
  let hum_raw := rawCode (raw_data.getD 0 0) (raw_data.getD 1 0)
  let data := { data with humidity := humidityOfRaw hum_raw }
  let temp_raw := rawCode (raw_data.getD 3 0) (raw_data.getD 4 0)
  let data := { data with temperature := temperatureOfRaw temp_raw }
  let data := { data with is_valid := 1 }
  let (_, tr) := GXHTC3_EnterSleep env tr
  (HAL_OK, data, tr)

def GXHTC3_SoftReset (env : Transport) (tr : List Call) :
    HAL_StatusTypeDef × List Call :=
  let (status, tr) := GXHTC3_SendCmd env tr GXHTC3_CMD_SOFT_RESET
  if status ≠ HAL_OK then (status, tr) else
  let tr := HAL_Delay_us tr 500
  (HAL_OK, tr)

/-! ## Vocabulary of the specification

The calls the specification names, and the transport's answers at the
successive steps of an operation that starts after the calls `tr`. -/

/-- Transmit of the Wakeup command `{0x35, 0x17}` to the write address. -/
def wakeCall : Call := Call.transmit 0xE0 [0x35, 0x17] 2 1000

/-- Transmit of the Sleep command `{0xB0, 0x98}` to the write address. -/
def sleepCall : Call := Call.transmit 0xE0 [0xB0, 0x98] 2 1000

/-- Transmit of the MeasureHumidityFirst command `{0x5C, 0x24}`. -/
def measureCall : Call := Call.transmit 0xE0 [0x5C, 0x24] 2 1000

/-- Transmit of the ReadSerialID command `{0xEF, 0xC8}`. -/
def readIdCall : Call := Call.transmit 0xE0 [0xEF, 0xC8] 2 1000

/-- The bus presence probe. -/
def probeCall : Call := Call.isDeviceReady 0xE0 3 1000

/-- A receive of `n` bytes from the read address. -/
def receiveCall (n : Nat) : Call := Call.receive 0xE1 n 1000

/-- The wake-stabilization delay. -/
def wakeDelay : Call := Call.delay_us 50

/-- The answer to the wake transmit of `GXHTC3_Init` and of
`GXHTC3_ReadHumidityTemp`. -/
def wakeReply (env : Transport) (tr : List Call) : Reply :=
  env tr wakeCall

/-- The answer to the measure transmit of a read. -/
def measureReply (env : Transport) (tr : List Call) : Reply :=
  env (tr ++ [wakeCall, wakeDelay]) measureCall

/-- The answer to the 6-byte receive of a read. -/
def readReply (env : Transport) (tr : List Call) : Reply :=
  env (tr ++ [wakeCall, wakeDelay, measureCall]) (receiveCall 6)

/-- The six bytes `raw_data` holds after the receive of a read. -/
def readRaw (env : Transport) (tr : List Call) : List Nat :=
  storeBytes [0, 0, 0, 0, 0, 0] (readReply env tr).data 6

/-- The humidity triplet of a read carries a correct checksum. -/
abbrev humidityCrcOk (env : Transport) (tr : List Call) : Prop :=
  GXHTC3_CheckCRC [(readRaw env tr).getD 0 0, (readRaw env tr).getD 1 0]
    ((readRaw env tr).getD 2 0) = HAL_OK

/-- The temperature triplet of a read carries a correct checksum. -/
abbrev temperatureCrcOk (env : Transport) (tr : List Call) : Prop :=
  GXHTC3_CheckCRC [(readRaw env tr).getD 3 0, (readRaw env tr).getD 4 0]
    ((readRaw env tr).getD 5 0) = HAL_OK

/-- The answer to the presence probe of `GXHTC3_Init`. -/
def probeReply (env : Transport) (tr : List Call) : Reply :=
  env (tr ++ [wakeCall, wakeDelay]) probeCall

/-- The answer to the ReadSerialID transmit of `GXHTC3_Init`. -/
def readIdReply (env : Transport) (tr : List Call) : Reply :=
  env (tr ++ [wakeCall, wakeDelay, probeCall]) readIdCall

/-- The answer to the 3-byte receive of `GXHTC3_Init`. -/
def idReply (env : Transport) (tr : List Call) : Reply :=
  env (tr ++ [wakeCall, wakeDelay, probeCall, readIdCall]) (receiveCall 3)

/-- The three bytes `id_buf` holds after the receive of `GXHTC3_Init`. -/
def idBuf (env : Transport) (tr : List Call) : List Nat :=
  storeBytes [0, 0, 0] (idReply env tr).data 3

/-- The identifier triplet carries a correct checksum. -/
abbrev idCrcOk (env : Transport) (tr : List Call) : Prop :=
  GXHTC3_CheckCRC [(idBuf env tr).getD 0 0, (idBuf env tr).getD 1 0]
    ((idBuf env tr).getD 2 0) = HAL_OK

/-- The steps of `GXHTC3_ReadHumidityTemp` that can fail. -/
inductive ReadStep where
  | wake
  | measure
  | receive
  | humidityCrc
  | temperatureCrc
  deriving DecidableEq, Repr

/-- The read that starts after `tr` fails at the given step: every bus
transaction before it succeeded, and the step itself fails.  A checksum step
says nothing about the other triplet. -/
def ReadFailsAt (env : Transport) (tr : List Call) : ReadStep → Prop
  | .wake => (wakeReply env tr).status ≠ HAL_OK
  | .measure => (wakeReply env tr).status = HAL_OK ∧ (measureReply env tr).status ≠ HAL_OK
  | .receive => (wakeReply env tr).status = HAL_OK ∧ (measureReply env tr).status = HAL_OK ∧
      (readReply env tr).status ≠ HAL_OK
  | .humidityCrc => (wakeReply env tr).status = HAL_OK ∧
      (measureReply env tr).status = HAL_OK ∧ (readReply env tr).status = HAL_OK ∧
      ¬ humidityCrcOk env tr
  | .temperatureCrc => (wakeReply env tr).status = HAL_OK ∧
      (measureReply env tr).status = HAL_OK ∧ (readReply env tr).status = HAL_OK ∧
      ¬ temperatureCrcOk env tr

/-- The collaborator calls of a read up to and including the failing step (a
checksum step issues no call of its own). -/
def readCallsUntil : ReadStep → List Call
  | .wake => [wakeCall]
  | .measure => [wakeCall, wakeDelay, measureCall]
  | .receive => [wakeCall, wakeDelay, measureCall, receiveCall 6]
  | .humidityCrc => [wakeCall, wakeDelay, measureCall, receiveCall 6]
  | .temperatureCrc => [wakeCall, wakeDelay, measureCall, receiveCall 6]

/-- The status a failing step of a read hands to the caller according to the
code: the transport's status for a bus transaction, `HAL_ERROR` for a checksum
mismatch. -/
def readFailStatus (env : Transport) (tr : List Call) : ReadStep → HAL_StatusTypeDef
  | .wake => (wakeReply env tr).status
  | .measure => (measureReply env tr).status
  | .receive => (readReply env tr).status
  | .humidityCrc => HAL_ERROR
  | .temperatureCrc => HAL_ERROR

/-- The steps of `GXHTC3_Init` that can fail. -/
inductive InitStep where
  | wake
  | probe
  | readId
  | receive
  | crc
  deriving DecidableEq, Repr

/-- The initialization that starts after `tr` fails at the given step; the
last three steps exist only when an identifier is requested. -/
def InitFailsAt (env : Transport) (tr : List Call) (wantId : Bool) : InitStep → Prop
  | .wake => (wakeReply env tr).status ≠ HAL_OK
  | .probe => (wakeReply env tr).status = HAL_OK ∧ (probeReply env tr).status ≠ HAL_OK
  | .readId => wantId = true ∧ (wakeReply env tr).status = HAL_OK ∧
      (probeReply env tr).status = HAL_OK ∧ (readIdReply env tr).status ≠ HAL_OK
  | .receive => wantId = true ∧ (wakeReply env tr).status = HAL_OK ∧
      (probeReply env tr).status = HAL_OK ∧ (readIdReply env tr).status = HAL_OK ∧
      (idReply env tr).status ≠ HAL_OK
  | .crc => wantId = true ∧ (wakeReply env tr).status = HAL_OK ∧
      (probeReply env tr).status = HAL_OK ∧ (readIdReply env tr).status = HAL_OK ∧
      (idReply env tr).status = HAL_OK ∧ ¬ idCrcOk env tr

/-- The status a failing step of an initialization hands to the caller
according to the code. -/
def initFailStatus (env : Transport) (tr : List Call) : InitStep → HAL_StatusTypeDef
  | .wake => (wakeReply env tr).status
  | .probe => (probeReply env tr).status
  | .readId => (readIdReply env tr).status
  | .receive => (idReply env tr).status
  | .crc => HAL_ERROR

/-- Every step of an initialization with an identifier requested succeeds. -/
abbrev InitIdSucceeds (env : Transport) (tr : List Call) : Prop :=
  (wakeReply env tr).status = HAL_OK ∧ (probeReply env tr).status = HAL_OK ∧
    (readIdReply env tr).status = HAL_OK ∧ (idReply env tr).status = HAL_OK ∧
    idCrcOk env tr

/-- The call is a transmit whose payload is the 16-bit command `cmd`, most
significant byte first. -/
def Call.transmits (cmd : Nat) : Call → Bool
  | .transmit _ pData _ _ => pData == [cmd / 256, cmd % 256]
  | _ => false

/-- The call is a receive. -/
def Call.isReceive : Call → Bool
  | .receive _ _ _ => true
  | _ => false

/-! ### Transport behaviours used as concrete instances -/

/-- Every transaction succeeds; a receive delivers triplets `{0xBE, 0xEF, 0x92}`,
whose checksum is correct. -/
def goodBus : Transport := fun _ c =>
  match c with
  | .receive _ _ _ => ⟨HAL_OK, [0xBE, 0xEF, 0x92, 0xBE, 0xEF, 0x92]⟩
  | _ => ⟨HAL_OK, []⟩

/-- Every transaction fails with `HAL_ERROR`. -/
def deadBus : Transport := fun _ _ => ⟨HAL_ERROR, []⟩

/-- Every transaction succeeds, but a receive delivers zero bytes only, whose
checksum byte is wrong. -/
def corruptBus : Transport := fun _ c =>
  match c with
  | .receive _ _ _ => ⟨HAL_OK, [0, 0, 0, 0, 0, 0]⟩
  | _ => ⟨HAL_OK, []⟩

/-- Transmits succeed, the presence probe times out. -/
def absentBus : Transport := fun _ c =>
  match c with
  | .isDeviceReady _ _ _ => ⟨HAL_TIMEOUT, []⟩
  | _ => ⟨HAL_OK, []⟩

instance (env : Transport) (tr : List Call) (s : ReadStep) :
    Decidable (ReadFailsAt env tr s) := by
  cases s <;> unfold ReadFailsAt <;> infer_instance

instance (env : Transport) (tr : List Call) (wantId : Bool) (s : InitStep) :
    Decidable (InitFailsAt env tr wantId s) := by
  cases s <;> unfold InitFailsAt <;> infer_instance

/-! ## Reference CRC-8 of the specification -/

/-- One round of the specification's CRC: shift left by one, truncated to 8
bits, and XOR with `0x31` exactly when the bit shifted out was 1. -/
def crc8RefRound (acc : Nat) : Nat :=
  let shifted := (acc * 2) % 256
  if acc / 128 % 2 = 1 then shifted ^^^ 0x31 else shifted

/-- The specification's CRC-8: start at `0xFF`; for each byte in order, XOR it
in and perform 8 rounds; no reflection, no final XOR. -/
def crc8Ref (payload : List Nat) : Nat :=
  payload.foldl (fun acc b => crc8RefRound^[8] (acc ^^^ b)) 0xFF

/-- The triple `(d0, d1, c)` with bit `k` of its 24 bits flipped: bits 0..7
are in `d0`, bits 8..15 in `d1`, bits 16..23 in `c`. -/
def flipBit (t : Nat × Nat × Nat) (k : Nat) : Nat × Nat × Nat :=
  if k < 8 then (t.1 ^^^ 2 ^ k, t.2.1, t.2.2)
  else if k < 16 then (t.1, t.2.1 ^^^ 2 ^ (k - 8), t.2.2)
  else (t.1, t.2.1, t.2.2 ^^^ 2 ^ (k - 16))

/-- The inverse of `crcShift` on bytes. -/
def crcUnshift (y : Nat) : Nat :=
  if y % 2 = 1 then ((y ^^^ 0x31) >>> 1) ||| 0x80 else y >>> 1

/-- The exponent of the spacing of the format around `q`: `fpRound` sends `q`
to a multiple of `2 ^ ulpExp p emin q`. -/
def ulpExp (p : Nat) (emin : Int) (q : ℚ) : Int :=
  max (Int.log 2 |q|) emin - ((p : Int) - 1)

/-! ### Further vocabulary: reset, call classes, sleep outcome -/

/-- Transmit of the SoftReset command `{0x80, 0x5D}` to the write address. -/
def softResetCall : Call := Call.transmit 0xE0 [0x80, 0x5D] 2 1000

/-- The post-reset settle delay. -/
def resetDelay : Call := Call.delay_us 500

/-- The call is a bus presence probe. -/
def Call.isProbe : Call → Bool
  | .isDeviceReady _ _ _ => true
  | _ => false

/-- The call is a delay. -/
def Call.isDelay : Call → Bool
  | .delay_us _ => true
  | _ => false

/-- The call is a bus transaction (transmit, receive or probe). -/
def Call.isBus : Call → Bool
  | .delay_us _ => false
  | _ => true

/-- Every transmit among the calls carries one of the 16-bit commands `cmds`,
most significant byte first, as a payload of exactly two bytes. -/
def transmitsOnly (cmds : List Nat) (calls : List Call) : Bool :=
  calls.all fun c =>
    match c with
    | .transmit _ pData size _ =>
      size == 2 && (cmds.map fun cmd => [cmd / 256, cmd % 256]).contains pData
    | _ => true

/-- The call uses the addressing and timeout of the specification: a transmit
or a probe goes to the write address `(0x70 << 1) | 0`, a receive to the read
address `(0x70 << 1) | 1`, each with a timeout of 1000 ms. -/
def Call.wellAddressed : Call → Bool
  | .transmit addr _ _ timeout => addr == ((0x70 <<< 1) ||| 0) && timeout == 1000
  | .receive addr _ timeout => addr == ((0x70 <<< 1) ||| 1) && timeout == 1000
  | .isDeviceReady addr _ timeout => addr == ((0x70 <<< 1) ||| 0) && timeout == 1000
  | .delay_us _ => true

/-- The transport `env` with the answer to every transmit of the Sleep command
replaced by `r`. -/
def withSleepReply (env : Transport) (r : Reply) : Transport := fun tr c =>
  if c = sleepCall then r else env tr c

/-- The sequences of calls a read can issue. -/
def readCallSequences : List (List Call) :=
  [[wakeCall, sleepCall],
   [wakeCall, wakeDelay, measureCall, sleepCall],
   [wakeCall, wakeDelay, measureCall, receiveCall 6, sleepCall]]

/-- The sequences of calls an initialization can issue. -/
def initCallSequences : List (List Call) :=
  [[wakeCall],
   [wakeCall, wakeDelay, probeCall],
   [wakeCall, wakeDelay, probeCall, readIdCall],
   [wakeCall, wakeDelay, probeCall, readIdCall, receiveCall 3]]

/-- The sequences of calls a soft reset can issue. -/
def softResetCallSequences : List (List Call) :=
  [[softResetCall], [softResetCall, resetDelay]]

/-! ### The datasheet formulas quoted by the comments of the conversion step -/

/-- The formula of the comment on the humidity conversion:
`RH = 100 * S_RH / 2^16`. -/
def datasheetHumidity (s_rh : Nat) : ℚ := 100 * (s_rh : ℚ) / 2 ^ 16

/-- The formula of the comment on the temperature conversion:
`T = -45 + 175 * S_T / 2^16`. -/
def datasheetTemperature (s_t : Nat) : ℚ := -45 + 175 * (s_t : ℚ) / 2 ^ 16

/-- Every transaction succeeds; a receive delivers the full-scale triplets
`{0xFF, 0xFF, 0xAC}`, whose checksum is correct. -/
def fullScaleBus : Transport := fun _ c =>
  match c with
  | .receive _ _ _ => ⟨HAL_OK, [0xFF, 0xFF, 0xAC, 0xFF, 0xFF, 0xAC]⟩
  | _ => ⟨HAL_OK, []⟩

/-! ## `float_to_str`

The operand `0.5` is a `double`, so the sum is computed in binary64; the two
conversions to `int` truncate toward zero and are undefined when the truncated
value does not fit a 32-bit `int`.  The `int` additions and subtractions of the
function stay far inside the `int` range and are exact. -/

/-- Rounding to `double` (binary64). -/
def f64Round (q : ℚ) : ℚ := fpRound 53 (-1022) q

def f64Add (a b : ℚ) : ℚ := f64Round (a + b)

/-- The conversion `(float)i` of an `int`. -/
def f32OfInt (i : Int) : ℚ := f32Round i

/-- The conversion `(int)x` of a floating value: truncation toward zero, with
no result when the truncated value is outside the range of `int`. -/
def intOfFloat (x : ℚ) : Option Int :=
  let t : Int := if 0 ≤ x then ⌊x⌋ else ⌈x⌉
  if -2147483648 ≤ t ∧ t ≤ 2147483647 then some t else none

/-- The initial value of `decimal_part`:
`(int)((num - integer_part) * 100 + 0.5)`. -/
def decimalPart (num : ℚ) (integer_part : Int) : Option Int :=
  intOfFloat (f64Add (f32Mul (f32Sub num (f32OfInt integer_part)) 100) (1 / 2))

/-- The values of `integer_part` and `decimal_part` that `float_to_str` hands
to `sprintf`. -/
def float_to_str_parts (num : ℚ) : Option (Int × Int) :=
  match intOfFloat num with
  | none => none
  | some integer_part =>
    match decimalPart num integer_part with
    | none => none
    | some decimal_part =>
      if decimal_part ≥ 100 then some (integer_part + 1, decimal_part - 100)
      else if num < 0 ∧ decimal_part > 0 then some (integer_part - 1, 100 - decimal_part)
      else some (integer_part, decimal_part)

/-- The conversion `%d` of `sprintf`. -/
def printf_d (i : Int) : String := toString i

/-- The conversion `%02d` of `sprintf`: at least two characters, padded with a
zero on the left. -/
def printf_02d (i : Int) : String :=
  if 0 ≤ i ∧ i < 10 then "0" ++ toString i else toString i

/-- The string `float_to_str` writes into `buf`, with format `%d.%02d`. -/
def float_to_str (num : ℚ) : Option String :=
  (float_to_str_parts num).map fun r => printf_d r.1 ++ "." ++ printf_02d r.2

/-- The value `x` rounded half-up to two decimals. -/
def roundHalfUp2 (x : ℚ) : ℚ := (⌊x * 100 + 1 / 2⌋ : ℚ) / 100

/-! # Theorems -/

/-! ## Checksum lemmas -/

theorem crcCalc_pair (d0 d1 : Nat) :
    crcCalc [d0, d1] = crcBits ((crcBits ((0xFF ^^^ d0) % 256) ^^^ d1) % 256) := rfl

theorem crc8Ref_pair (d0 d1 : Nat) :
    crc8Ref [d0, d1] = crc8RefRound^[8] (crc8RefRound^[8] (0xFF ^^^ d0) ^^^ d1) := rfl

set_option maxRecDepth 100000 in
theorem crcBits_eq_ref : ∀ a, a < 256 → crcBits a = crc8RefRound^[8] a := by decide

set_option maxRecDepth 100000 in
theorem crcBits_lt : ∀ a, a < 256 → crcBits a < 256 := by decide

set_option maxRecDepth 100000 in
theorem crcBits_unshift : ∀ a, a < 256 → crcUnshift^[8] (crcBits a) = a := by decide

theorem crcBits_inj {a b : Nat} (ha : a < 256) (hb : b < 256)
    (h : crcBits a = crcBits b) : a = b := by
  rw [← crcBits_unshift a ha, ← crcBits_unshift b hb, h]

theorem xor_byte_lt {a b : Nat} (ha : a < 256) (hb : b < 256) : a ^^^ b < 256 :=
  @Nat.xor_lt_two_pow a b 8 ha hb

theorem crcCalc_bytes {d0 d1 : Nat} (h0 : d0 < 256) (h1 : d1 < 256) :
    crcCalc [d0, d1] = crcBits (crcBits (0xFF ^^^ d0) ^^^ d1) := by
  have hx : 0xFF ^^^ d0 < 256 := xor_byte_lt (by norm_num) h0
  have hy : crcBits (0xFF ^^^ d0) ^^^ d1 < 256 := xor_byte_lt (crcBits_lt _ hx) h1
  rw [crcCalc_pair, Nat.mod_eq_of_lt hx, Nat.mod_eq_of_lt hy]

theorem crcCalc_lt {d0 d1 : Nat} (h0 : d0 < 256) (h1 : d1 < 256) :
    crcCalc [d0, d1] < 256 := by
  rw [crcCalc_bytes h0 h1]
  exact crcBits_lt _ (xor_byte_lt (crcBits_lt _ (xor_byte_lt (by norm_num) h0)) h1)

theorem crcCalc_eq_ref {d0 d1 : Nat} (h0 : d0 < 256) (h1 : d1 < 256) :
    crcCalc [d0, d1] = crc8Ref [d0, d1] := by
  have hx : 0xFF ^^^ d0 < 256 := xor_byte_lt (by norm_num) h0
  rw [crcCalc_bytes h0 h1, crc8Ref_pair, ← crcBits_eq_ref _ hx,
    ← crcBits_eq_ref _ (xor_byte_lt (crcBits_lt _ hx) h1)]

theorem crcCalc_inj {d0 d1 e0 e1 : Nat} (h0 : d0 < 256) (h1 : d1 < 256)
    (g0 : e0 < 256) (g1 : e1 < 256) (h : crcCalc [d0, d1] = crcCalc [e0, e1]) :
    (d1 = e1 → d0 = e0) ∧ (d0 = e0 → d1 = e1) := by
  have hx : 0xFF ^^^ d0 < 256 := xor_byte_lt (by norm_num) h0
  have gx : 0xFF ^^^ e0 < 256 := xor_byte_lt (by norm_num) g0
  rw [crcCalc_bytes h0 h1, crcCalc_bytes g0 g1] at h
  have h2 := crcBits_inj (xor_byte_lt (crcBits_lt _ hx) h1)
    (xor_byte_lt (crcBits_lt _ gx) g1) h
  constructor
  · intro he
    subst he
    have h3 := crcBits_inj hx gx (Nat.xor_left_injective h2)
    exact Nat.xor_right_injective h3
  · intro he
    subst he
    exact Nat.xor_right_injective h2

theorem checkCRC_ok_iff (data : List Nat) (crc : Nat) :
    GXHTC3_CheckCRC data crc = HAL_OK ↔ crcCalc data = crc := by
  unfold GXHTC3_CheckCRC
  split <;> simp_all

theorem checkCRC_cases (data : List Nat) (crc : Nat) :
    GXHTC3_CheckCRC data crc = HAL_OK ∨ GXHTC3_CheckCRC data crc = HAL_ERROR := by
  unfold GXHTC3_CheckCRC
  split <;> simp

theorem xor_pow_ne (a k : Nat) : a ^^^ 2 ^ k ≠ a := by
  intro h
  have h2 : a ^^^ 2 ^ k = a ^^^ 0 := by simpa using h
  have h3 := Nat.xor_right_injective h2
  exact absurd h3 (by positivity)

theorem pow_lt_byte {k : Nat} (hk : k < 8) : 2 ^ k < 256 := by
  have : 2 ^ k < 2 ^ 8 := Nat.pow_lt_pow_right (by norm_num) hk
  simpa using this

/-- C1 (as amended): for every 2-byte payload `(d0, d1)` and expected byte `c`,
`GXHTC3_CheckCRC` passes if and only if `c` is the specification's reference
CRC-8 of the payload; the payload `{0x68, 0x3A}` passes with checksum `0xFD`;
and exactly one checksum byte passes for each payload. -/
theorem checkCRC_iff_reference (d0 d1 c : Nat) (h0 : d0 < 256) (h1 : d1 < 256) :
    (GXHTC3_CheckCRC [d0, d1] c = HAL_OK ↔ c = crc8Ref [d0, d1]) ∧
    GXHTC3_CheckCRC [0x68, 0x3A] 0xFD = HAL_OK ∧
    (∃! x, x < 256 ∧ GXHTC3_CheckCRC [d0, d1] x = HAL_OK) := by
  refine ⟨?_, by decide, ?_⟩
  · rw [checkCRC_ok_iff, crcCalc_eq_ref h0 h1]
    exact eq_comm
  · refine ⟨crcCalc [d0, d1], ⟨crcCalc_lt h0 h1, (checkCRC_ok_iff _ _).2 rfl⟩, ?_⟩
    rintro y ⟨_, hy⟩
    exact ((checkCRC_ok_iff _ _).1 hy).symm

theorem checkCRC_iff_reference_witness :
    (0xBE < 256 ∧ 0xEF < 256) ∧
    (GXHTC3_CheckCRC [0xBE, 0xEF] 0x92 = HAL_OK ↔ 0x92 = crc8Ref [0xBE, 0xEF]) :=
  ⟨by decide,
    (checkCRC_iff_reference 0xBE 0xEF 0x92 (by decide) (by decide)).1⟩

/-- C1 (as stated) fails: the payload `{0x68, 0x3A}` with checksum `0x7C` does
not pass `GXHTC3_CheckCRC`, although `0x7C` is a byte; the reference CRC-8 of
that payload is `0xFD`. -/
theorem checkCRC_vector_0x7C_fails :
    GXHTC3_CheckCRC [0x68, 0x3A] 0x7C = HAL_ERROR ∧ crc8Ref [0x68, 0x3A] = 0xFD := by
  decide

/-- C2: for every 2-byte payload with its correct checksum, flipping any single
one of the 24 bits of `(d0, d1, c)` makes `GXHTC3_CheckCRC` fail. -/
theorem checkCRC_detects_single_bit_flip (d0 d1 c k : Nat)
    (h0 : d0 < 256) (h1 : d1 < 256)
    (hok : GXHTC3_CheckCRC [d0, d1] c = HAL_OK) (hk : k < 24) :
    GXHTC3_CheckCRC [(flipBit (d0, d1, c) k).1, (flipBit (d0, d1, c) k).2.1]
      (flipBit (d0, d1, c) k).2.2 = HAL_ERROR := by
  have hcalc := (checkCRC_ok_iff _ _).1 hok
  have key : ∀ e0 e1 x, crcCalc [e0, e1] ≠ x → GXHTC3_CheckCRC [e0, e1] x = HAL_ERROR := by
    intro e0 e1 x hne
    rcases checkCRC_cases [e0, e1] x with h | h
    · exact absurd ((checkCRC_ok_iff _ _).1 h) hne
    · exact h
  apply key
  unfold flipBit
  by_cases hk8 : k < 8
  · simp only [hk8, if_true]
    intro h
    have hb : d0 ^^^ 2 ^ k < 256 := xor_byte_lt h0 (pow_lt_byte hk8)
    exact xor_pow_ne d0 k ((crcCalc_inj hb h1 h0 h1 (h.trans hcalc.symm)).1 rfl)
  · by_cases hk16 : k < 16
    · simp only [hk8, hk16, if_true, if_false]
      intro h
      have hb : d1 ^^^ 2 ^ (k - 8) < 256 := xor_byte_lt h1 (pow_lt_byte (by omega))
      exact xor_pow_ne d1 (k - 8) ((crcCalc_inj h0 hb h0 h1 (h.trans hcalc.symm)).2 rfl)
    · simp only [hk8, hk16, if_false]
      intro h
      exact xor_pow_ne c (k - 16) (h.symm.trans hcalc)

theorem checkCRC_detects_single_bit_flip_witness :
    (GXHTC3_CheckCRC [0xBE, 0xEF] 0x92 = HAL_OK ∧ 9 < 24) ∧
    GXHTC3_CheckCRC [0xBE, 0xED] 0x92 = HAL_ERROR :=
  ⟨by decide,
    checkCRC_detects_single_bit_flip 0xBE 0xEF 0x92 9 (by decide) (by decide)
      (by decide) (by decide)⟩

/-! ## The operations as decision chains over the transport's answers -/

theorem sendCmd_wake (env : Transport) (tr : List Call) :
    GXHTC3_SendCmd env tr GXHTC3_CMD_WAKEUP = ((env tr wakeCall).status, tr ++ [wakeCall]) :=
  rfl

theorem sendCmd_sleep (env : Transport) (tr : List Call) :
    GXHTC3_SendCmd env tr GXHTC3_CMD_SLEEP = ((env tr sleepCall).status, tr ++ [sleepCall]) :=
  rfl

theorem sendCmd_measure (env : Transport) (tr : List Call) :
    GXHTC3_SendCmd env tr GXHTC3_CMD_MEASURE_HUM =
      ((env tr measureCall).status, tr ++ [measureCall]) :=
  rfl

theorem sendCmd_readId (env : Transport) (tr : List Call) :
    GXHTC3_SendCmd env tr GXHTC3_CMD_READ_ID =
      ((env tr readIdCall).status, tr ++ [readIdCall]) :=
  rfl

theorem receive_eq (env : Transport) (tr : List Call) (buf : List Nat) (n : Nat) :
    HAL_I2C_Master_Receive env tr GXHTC3_I2C_ADDR_READ buf n GXHTC3_I2C_TIMEOUT_MS =
      ((env tr (receiveCall n)).status, storeBytes buf (env tr (receiveCall n)).data n,
        tr ++ [receiveCall n]) :=
  rfl

theorem isDeviceReady_eq (env : Transport) (tr : List Call) :
    HAL_I2C_IsDeviceReady env tr GXHTC3_I2C_ADDR_WRITE 3 GXHTC3_I2C_TIMEOUT_MS =
      ((env tr probeCall).status, tr ++ [probeCall]) :=
  rfl

theorem delay_wake (tr : List Call) :
    HAL_Delay_us tr GXHTC3_WAKEUP_DELAY_US = tr ++ [wakeDelay] :=
  rfl

theorem crcCalc_eq (data : List Nat) :
    crcCalc data =
      crcBits ((crcBits ((0xFF ^^^ data.getD 0 0) % 256) ^^^ data.getD 1 0) % 256) := rfl

theorem crcCalc_getD (data : List Nat) :
    crcCalc data = crcCalc [data.getD 0 0, data.getD 1 0] := by
  rw [crcCalc_eq, crcCalc_pair]

theorem checkCRC_getD (data : List Nat) (crc : Nat) :
    GXHTC3_CheckCRC data crc = GXHTC3_CheckCRC [data.getD 0 0, data.getD 1 0] crc := by
  unfold GXHTC3_CheckCRC
  rw [crcCalc_getD]

theorem getD_drop_three (l : List Nat) (i : Nat) : (l.drop 3).getD i 0 = l.getD (3 + i) 0 := by
  simp [List.getD, Nat.add_comm]

theorem checkCRC_ne_ok {data : List Nat} {crc : Nat}
    (h : GXHTC3_CheckCRC data crc ≠ HAL_OK) : GXHTC3_CheckCRC data crc = HAL_ERROR := by
  rcases checkCRC_cases data crc with h' | h'
  · exact absurd h' h
  · exact h'

/-- The function `GXHTC3_ReadHumidityTemp` as a chain of decisions over the transport's
answers. -/
theorem readHumidityTemp_eq (env : Transport) (tr : List Call) (data : GXHTC3_DataTypedef) :
    GXHTC3_ReadHumidityTemp env tr data =
      if (wakeReply env tr).status ≠ HAL_OK then
        ((wakeReply env tr).status, { data with is_valid := 0 }, tr ++ [wakeCall, sleepCall])
      else if (measureReply env tr).status ≠ HAL_OK then
        ((measureReply env tr).status, { data with is_valid := 0 },
          tr ++ [wakeCall, wakeDelay, measureCall, sleepCall])
      else if (readReply env tr).status ≠ HAL_OK then
        ((readReply env tr).status, { data with is_valid := 0 },
          tr ++ [wakeCall, wakeDelay, measureCall, receiveCall 6, sleepCall])
      else if ¬ humidityCrcOk env tr then
        (HAL_ERROR, { data with is_valid := 0 },
          tr ++ [wakeCall, wakeDelay, measureCall, receiveCall 6, sleepCall])
      else if ¬ temperatureCrcOk env tr then
        (HAL_ERROR, { data with is_valid := 0 },
          tr ++ [wakeCall, wakeDelay, measureCall, receiveCall 6, sleepCall])
      else
        (HAL_OK,
          { humidity := humidityOfRaw (rawCode ((readRaw env tr).getD 0 0)
              ((readRaw env tr).getD 1 0)),
            temperature := temperatureOfRaw (rawCode ((readRaw env tr).getD 3 0)
              ((readRaw env tr).getD 4 0)),
            is_valid := 1 },
          tr ++ [wakeCall, wakeDelay, measureCall, receiveCall 6, sleepCall]) := by
  unfold GXHTC3_ReadHumidityTemp exit_fail GXHTC3_EnterSleep
  simp only [sendCmd_wake, sendCmd_sleep, sendCmd_measure, receive_eq, delay_wake,
    List.append_assoc, List.cons_append, List.nil_append, List.drop_zero,
    wakeReply, measureReply, readReply, readRaw, humidityCrcOk, temperatureCrcOk]
  rw [checkCRC_getD (List.drop 3 _), checkCRC_getD (storeBytes _ _ _)]
  simp only [getD_drop_three]
  split_ifs with h1 h2 h3 h4 h5
  · rfl
  · rfl
  · rfl
  · rw [checkCRC_ne_ok h4]
  · rw [checkCRC_ne_ok h5]
  · rfl

/-- The function `GXHTC3_Init` as a chain of decisions over the transport's answers. -/
theorem init_eq (env : Transport) (tr : List Call) (sensor_id : Option (List Nat)) :
    GXHTC3_Init env tr sensor_id =
      if (wakeReply env tr).status ≠ HAL_OK then
        ((wakeReply env tr).status, sensor_id, tr ++ [wakeCall])
      else if (probeReply env tr).status ≠ HAL_OK then
        ((probeReply env tr).status, sensor_id, tr ++ [wakeCall, wakeDelay, probeCall])
      else
        match sensor_id with
        | none => (HAL_OK, none, tr ++ [wakeCall, wakeDelay, probeCall])
        | some id =>
          if (readIdReply env tr).status ≠ HAL_OK then
            ((readIdReply env tr).status, some id,
              tr ++ [wakeCall, wakeDelay, probeCall, readIdCall])
          else if (idReply env tr).status ≠ HAL_OK then
            ((idReply env tr).status, some id,
              tr ++ [wakeCall, wakeDelay, probeCall, readIdCall, receiveCall 3])
          else if ¬ idCrcOk env tr then
            (HAL_ERROR, some id,
              tr ++ [wakeCall, wakeDelay, probeCall, readIdCall, receiveCall 3])
          else
            (HAL_OK,
              some ((id.set 0 ((idBuf env tr).getD 0 0)).set 1 ((idBuf env tr).getD 1 0)),
              tr ++ [wakeCall, wakeDelay, probeCall, readIdCall, receiveCall 3]) := by
  unfold GXHTC3_Init
  simp only [sendCmd_wake, sendCmd_readId, receive_eq, delay_wake, isDeviceReady_eq,
    List.append_assoc, List.cons_append, List.nil_append, List.drop_zero,
    wakeReply, probeReply, readIdReply, idReply, idBuf, idCrcOk]
  cases sensor_id with
  | none => rfl
  | some id =>
    simp only []
    rw [checkCRC_getD (storeBytes _ _ _)]

/-! ## Command encoding -/

theorem cmdBuf_eq {cmd : Nat} (h : cmd < 65536) : cmdBuf cmd = [cmd / 256, cmd % 256] := by
  unfold cmdBuf
  have h1 : cmd >>> 8 = cmd / 256 := by rw [Nat.shiftRight_eq_div_pow]
  have h2 : cmd &&& 0xFF = cmd % 256 := Nat.and_pow_two_sub_one_eq_mod cmd 8
  rw [h1, h2, Nat.mod_mod, Nat.mod_eq_of_lt (show cmd / 256 < 256 by omega)]

/-- C3: for every 16-bit command code `cmd`, `GXHTC3_SendCmd` hands the
transport exactly the two bytes `[cmd / 256, cmd % 256]`, most significant
first, with `256 * b0 + b1 = cmd`; the encoding is injective, pairwise distinct
on the six defined commands, and Wakeup is transmitted as `{0x35, 0x17}`. -/
theorem sendCmd_big_endian (env : Transport) (tr : List Call) (cmd cmd' : Nat)
    (h : cmd < 65536) (h' : cmd' < 65536) :
    GXHTC3_SendCmd env tr cmd =
        ((env tr (Call.transmit GXHTC3_I2C_ADDR_WRITE [cmd / 256, cmd % 256] 2
            GXHTC3_I2C_TIMEOUT_MS)).status,
          tr ++ [Call.transmit GXHTC3_I2C_ADDR_WRITE [cmd / 256, cmd % 256] 2
            GXHTC3_I2C_TIMEOUT_MS]) ∧
      256 * (cmd / 256) + cmd % 256 = cmd ∧
      ((GXHTC3_SendCmd env tr cmd).2 = (GXHTC3_SendCmd env tr cmd').2 → cmd = cmd') ∧
      ([GXHTC3_CMD_WAKEUP, GXHTC3_CMD_SLEEP, GXHTC3_CMD_SOFT_RESET, GXHTC3_CMD_READ_ID,
          GXHTC3_CMD_MEASURE_HUM, GXHTC3_CMD_MEASURE_TEMP].map cmdBuf).Nodup ∧
      (GXHTC3_SendCmd env tr GXHTC3_CMD_WAKEUP).2 =
        tr ++ [Call.transmit GXHTC3_I2C_ADDR_WRITE [0x35, 0x17] 2 GXHTC3_I2C_TIMEOUT_MS] := by
  refine ⟨?_, by omega, ?_, by decide, rfl⟩
  · unfold GXHTC3_SendCmd HAL_I2C_Master_Transmit
    rw [cmdBuf_eq h]
  · intro heq
    unfold GXHTC3_SendCmd HAL_I2C_Master_Transmit at heq
    rw [cmdBuf_eq h, cmdBuf_eq h'] at heq
    have h2 := List.append_cancel_left heq
    simp only [List.cons.injEq, Call.transmit.injEq, and_true, true_and] at h2
    omega

theorem sendCmd_big_endian_witness :
    (0xB098 < 65536 ∧ 0x805D < 65536) ∧
      GXHTC3_SendCmd goodBus [] 0xB098 =
        (HAL_OK, [Call.transmit GXHTC3_I2C_ADDR_WRITE [0xB0, 0x98] 2 GXHTC3_I2C_TIMEOUT_MS]) :=
  ⟨by decide, (sendCmd_big_endian goodBus [] 0xB098 0x805D (by decide) (by decide)).1⟩

/-! ## `GXHTC3_ReadHumidityTemp` -/

theorem rawCode_eq {msb lsb : Nat} (h1 : msb < 256) (h2 : lsb < 256) :
    rawCode msb lsb = 256 * msb + lsb := by
  unfold rawCode
  have h3 : msb <<< 8 = 2 ^ 8 * msb := by rw [Nat.shiftLeft_eq, Nat.mul_comm]
  rw [h3, Nat.mod_eq_of_lt (show 2 ^ 8 * msb < 65536 by omega),
    ← Nat.mul_add_lt_is_or (show lsb < 2 ^ 8 from h2) msb,
    Nat.mod_eq_of_lt (show 2 ^ 8 * msb + lsb < 65536 by omega)]
  norm_num

theorem checkCRC_ok_lt {d0 d1 c : Nat} (h0 : d0 < 256) (h1 : d1 < 256)
    (h : GXHTC3_CheckCRC [d0, d1] c = HAL_OK) : c < 256 := by
  rw [← (checkCRC_ok_iff _ _).1 h]
  exact crcCalc_lt h0 h1

/-- C4: when the wake transmit, the measure transmit and the 6-byte receive
all succeed and the received bytes `{hm, hl, hc, tm, tl, tc}` carry correct
checksums for both triplets, `GXHTC3_ReadHumidityTemp` returns `HAL_OK` with
`is_valid = 1`, humidity `(256*hm + hl) * 100 / 65535` and temperature
`(256*tm + tl) * 175 / 65535 - 45` in `float` arithmetic, and the last
call it issues is the transmit of the Sleep command `{0xB0, 0x98}`. -/
theorem readHumidityTemp_success (env : Transport) (tr : List Call)
    (data : GXHTC3_DataTypedef) (hm hl hc tm tl tc : Nat)
    (hbytes : hm < 256 ∧ hl < 256 ∧ tm < 256 ∧ tl < 256)
    (hwake : (wakeReply env tr).status = HAL_OK)
    (hmeasure : (measureReply env tr).status = HAL_OK)
    (hreceive : (readReply env tr).status = HAL_OK)
    (hdata : (readReply env tr).data = [hm, hl, hc, tm, tl, tc])
    (hcrcH : GXHTC3_CheckCRC [hm, hl] hc = HAL_OK)
    (hcrcT : GXHTC3_CheckCRC [tm, tl] tc = HAL_OK) :
    GXHTC3_ReadHumidityTemp env tr data =
        (HAL_OK,
          { humidity := f32Div (f32Mul (f32OfNat (256 * hm + hl)) 100) 65535,
            temperature := f32Sub (f32Div (f32Mul (f32OfNat (256 * tm + tl)) 175) 65535) 45,
            is_valid := 1 },
          tr ++ [wakeCall, wakeDelay, measureCall, receiveCall 6, sleepCall]) ∧
      (GXHTC3_ReadHumidityTemp env tr data).2.2.getLast? =
        some (Call.transmit 0xE0 [0xB0, 0x98] 2 1000) := by
  obtain ⟨hhm, hhl, htm, htl⟩ := hbytes
  have hhc := checkCRC_ok_lt hhm hhl hcrcH
  have htc := checkCRC_ok_lt htm htl hcrcT
  have hraw : readRaw env tr = [hm, hl, hc, tm, tl, tc] := by
    unfold readRaw
    rw [hdata]
    simp [storeBytes, Nat.mod_eq_of_lt, hhm, hhl, hhc, htm, htl, htc]
  have key : GXHTC3_ReadHumidityTemp env tr data =
      (HAL_OK,
        { humidity := f32Div (f32Mul (f32OfNat (256 * hm + hl)) 100) 65535,
          temperature := f32Sub (f32Div (f32Mul (f32OfNat (256 * tm + tl)) 175) 65535) 45,
          is_valid := 1 },
        tr ++ [wakeCall, wakeDelay, measureCall, receiveCall 6, sleepCall]) := by
    rw [readHumidityTemp_eq]
    have hH : humidityCrcOk env tr := by
      unfold humidityCrcOk
      rw [hraw]
      exact hcrcH
    have hT : temperatureCrcOk env tr := by
      unfold temperatureCrcOk
      rw [hraw]
      exact hcrcT
    simp only [hwake, hmeasure, hreceive, hH, hT, ne_eq, not_true_eq_false, if_false]
    rw [hraw]
    simp only [List.getD_cons_zero, List.getD_cons_succ, rawCode_eq hhm hhl,
      rawCode_eq htm htl, humidityOfRaw, temperatureOfRaw]
  refine ⟨key, ?_⟩
  rw [key]
  simp [sleepCall]

theorem readHumidityTemp_success_witness :
    ((0xBE < 256 ∧ 0xEF < 256 ∧ 0xBE < 256 ∧ 0xEF < 256) ∧
      (wakeReply goodBus []).status = HAL_OK ∧
      (measureReply goodBus []).status = HAL_OK ∧
      (readReply goodBus []).status = HAL_OK ∧
      (readReply goodBus []).data = [0xBE, 0xEF, 0x92, 0xBE, 0xEF, 0x92] ∧
      GXHTC3_CheckCRC [0xBE, 0xEF] 0x92 = HAL_OK) ∧
    (GXHTC3_ReadHumidityTemp goodBus [] ⟨0, 0, 0⟩).2.2.getLast? =
      some (Call.transmit 0xE0 [0xB0, 0x98] 2 1000) :=
  ⟨by decide,
    (readHumidityTemp_success goodBus [] ⟨0, 0, 0⟩ 0xBE 0xEF 0x92 0xBE 0xEF 0x92
      (by decide) (by decide) (by decide) (by decide) (by decide) (by decide)
      (by decide)).2⟩

/-- The result of a read that fails at step `s`. -/
theorem read_fail_eq (env : Transport) (tr : List Call)
    (data : GXHTC3_DataTypedef) (s : ReadStep) (h : ReadFailsAt env tr s) :
    GXHTC3_ReadHumidityTemp env tr data =
      (readFailStatus env tr s, { data with is_valid := 0 },
        tr ++ (readCallsUntil s ++ [sleepCall])) := by
  rw [readHumidityTemp_eq]
  cases s with
  | wake =>
    have h1 : (wakeReply env tr).status ≠ HAL_OK := h
    simp [h1, readFailStatus, readCallsUntil]
  | measure =>
    obtain ⟨h1, h2⟩ := h
    simp [h1, h2, readFailStatus, readCallsUntil]
  | receive =>
    obtain ⟨h1, h2, h3⟩ := h
    simp [h1, h2, h3, readFailStatus, readCallsUntil]
  | humidityCrc =>
    obtain ⟨h1, h2, h3, h4⟩ := h
    simp only [h1, h2, h3, h4, ne_eq, not_true_eq_false, not_false_eq_true, if_true, if_false,
      readFailStatus, readCallsUntil, List.cons_append, List.nil_append]
  | temperatureCrc =>
    obtain ⟨h1, h2, h3, h5⟩ := h
    simp only [h1, h2, h3, h5, ne_eq, not_true_eq_false, not_false_eq_true, if_true, if_false,
      readFailStatus, readCallsUntil, List.cons_append, List.nil_append]
    split_ifs <;> rfl

theorem readFailStatus_ne_ok (env : Transport) (tr : List Call) (s : ReadStep)
    (h : ReadFailsAt env tr s) : readFailStatus env tr s ≠ HAL_OK := by
  cases s with
  | wake => exact h
  | measure => exact h.2
  | receive => exact h.2.2
  | humidityCrc => simp [readFailStatus]
  | temperatureCrc => simp [readFailStatus]

/-- C5: for every transport behaviour in which `GXHTC3_ReadHumidityTemp` fails
at some step (wake transmit, measure transmit, 6-byte receive, humidity
checksum, temperature checksum, whatever the other triplet holds), the
operation returns a non-OK status with `is_valid = 0`; the calls it issues are
exactly those up to the failing step followed by one transmit of the Sleep
command, so Sleep is transmitted exactly once and last, and no later step is
executed: humidity and temperature are not converted. -/
theorem readFailure_sleeps_once (env : Transport) (tr : List Call)
    (data : GXHTC3_DataTypedef) (s : ReadStep) (h : ReadFailsAt env tr s) :
    (GXHTC3_ReadHumidityTemp env tr data).1 ≠ HAL_OK ∧
      (GXHTC3_ReadHumidityTemp env tr data).2.1.is_valid = 0 ∧
      (GXHTC3_ReadHumidityTemp env tr data).2.2 = tr ++ (readCallsUntil s ++ [sleepCall]) ∧
      (readCallsUntil s ++ [sleepCall]).countP (Call.transmits GXHTC3_CMD_SLEEP) = 1 ∧
      (readCallsUntil s ++ [sleepCall]).getLast? =
        some (Call.transmit 0xE0 [0xB0, 0x98] 2 1000) ∧
      (GXHTC3_ReadHumidityTemp env tr data).2.1.humidity = data.humidity ∧
      (GXHTC3_ReadHumidityTemp env tr data).2.1.temperature = data.temperature := by
  rw [read_fail_eq env tr data s h]
  refine ⟨readFailStatus_ne_ok env tr s h, rfl, rfl, ?_, ?_, rfl, rfl⟩
  · cases s <;> decide
  · cases s <;> decide

theorem readFailure_sleeps_once_witness :
    ReadFailsAt corruptBus [] ReadStep.temperatureCrc ∧
      (GXHTC3_ReadHumidityTemp corruptBus [] ⟨7, 8, 1⟩).2.1.is_valid = 0 :=
  ⟨by decide,
    (readFailure_sleeps_once corruptBus [] ⟨7, 8, 1⟩ ReadStep.temperatureCrc
      (by decide)).2.1⟩

/-- C6 (as amended): on every failure path `GXHTC3_ReadHumidityTemp` sets
`is_valid` to 0 and writes nothing else: the humidity and temperature fields
of the output keep the contents they had before the call. -/
theorem readFailure_output (env : Transport) (tr : List Call)
    (data : GXHTC3_DataTypedef)
    (h : (GXHTC3_ReadHumidityTemp env tr data).1 ≠ HAL_OK) :
    (GXHTC3_ReadHumidityTemp env tr data).2.1 =
      { humidity := data.humidity, temperature := data.temperature, is_valid := 0 } := by
  rw [readHumidityTemp_eq] at h ⊢
  split_ifs at h ⊢ <;> first | rfl | exact absurd rfl h

theorem readFailure_output_witness :
    (GXHTC3_ReadHumidityTemp deadBus [] ⟨7, 8, 1⟩).1 ≠ HAL_OK ∧
      (GXHTC3_ReadHumidityTemp deadBus [] ⟨7, 8, 1⟩).2.1 = ⟨7, 8, 0⟩ :=
  ⟨by decide, readFailure_output deadBus [] ⟨7, 8, 1⟩ (by decide)⟩

/-- C6 (as stated) fails: two failing runs with the same transport behaviour
and different prior contents of the output structure produce different
measurements, because the failure path leaves humidity and temperature as they
were. -/
theorem readFailure_result_depends_on_prior :
    (GXHTC3_ReadHumidityTemp deadBus [] ⟨7, 8, 1⟩).1 ≠ HAL_OK ∧
      (GXHTC3_ReadHumidityTemp deadBus [] ⟨20, 30, 1⟩).1 ≠ HAL_OK ∧
      (GXHTC3_ReadHumidityTemp deadBus [] ⟨7, 8, 1⟩).2.1 ≠
        (GXHTC3_ReadHumidityTemp deadBus [] ⟨20, 30, 1⟩).2.1 := by
  refine ⟨by decide, by decide, ?_⟩
  have h1 : (GXHTC3_ReadHumidityTemp deadBus [] ⟨7, 8, 1⟩).2.1.humidity = 7 := rfl
  have h2 : (GXHTC3_ReadHumidityTemp deadBus [] ⟨20, 30, 1⟩).2.1.humidity = 20 := rfl
  intro h
  rw [h, h2] at h1
  norm_num at h1

/-! ## `GXHTC3_Init` -/

/-- The status of an initialization that fails at step `s`. -/
theorem init_fail_status (env : Transport) (tr : List Call) (sensor_id : Option (List Nat))
    (s : InitStep) (h : InitFailsAt env tr sensor_id.isSome s) :
    (GXHTC3_Init env tr sensor_id).1 = initFailStatus env tr s := by
  rw [init_eq]
  cases s with
  | wake =>
    have h1 : (wakeReply env tr).status ≠ HAL_OK := h
    simp [h1, initFailStatus]
  | probe =>
    obtain ⟨h1, h2⟩ := h
    simp [h1, h2, initFailStatus]
  | readId =>
    obtain ⟨h0, h1, h2, h3⟩ := h
    obtain ⟨id, rfl⟩ := Option.isSome_iff_exists.1 h0
    simp [h1, h2, h3, initFailStatus]
  | receive =>
    obtain ⟨h0, h1, h2, h3, h4⟩ := h
    obtain ⟨id, rfl⟩ := Option.isSome_iff_exists.1 h0
    simp [h1, h2, h3, h4, initFailStatus]
  | crc =>
    obtain ⟨h0, h1, h2, h3, h4, h5⟩ := h
    obtain ⟨id, rfl⟩ := Option.isSome_iff_exists.1 h0
    simp only [h1, h2, h3, h4, h5, ne_eq, not_true_eq_false, not_false_eq_true, if_true,
      if_false, initFailStatus]

/-- C7 (as amended): a run of `GXHTC3_Init` or `GXHTC3_ReadHumidityTemp` that
fails for a checksum mismatch returns `HAL_ERROR`, and a run that fails for a
bus transaction returns the status the transport gave for that transaction;
the status tells the two kinds apart only when the transport's status is not
`HAL_ERROR`. -/
theorem failure_status_by_kind (env : Transport) (tr : List Call)
    (data : GXHTC3_DataTypedef) (sensor_id : Option (List Nat)) :
    (∀ s, ReadFailsAt env tr s →
        (GXHTC3_ReadHumidityTemp env tr data).1 = readFailStatus env tr s) ∧
      (∀ s, InitFailsAt env tr sensor_id.isSome s →
        (GXHTC3_Init env tr sensor_id).1 = initFailStatus env tr s) ∧
      readFailStatus env tr ReadStep.humidityCrc = HAL_ERROR ∧
      readFailStatus env tr ReadStep.temperatureCrc = HAL_ERROR ∧
      initFailStatus env tr InitStep.crc = HAL_ERROR ∧
      readFailStatus env tr ReadStep.wake = (wakeReply env tr).status ∧
      readFailStatus env tr ReadStep.measure = (measureReply env tr).status ∧
      readFailStatus env tr ReadStep.receive = (readReply env tr).status ∧
      initFailStatus env tr InitStep.wake = (wakeReply env tr).status ∧
      initFailStatus env tr InitStep.probe = (probeReply env tr).status ∧
      initFailStatus env tr InitStep.readId = (readIdReply env tr).status ∧
      initFailStatus env tr InitStep.receive = (idReply env tr).status := by
  refine ⟨?_, ?_, rfl, rfl, rfl, rfl, rfl, rfl, rfl, rfl, rfl, rfl⟩
  · intro s h
    rw [read_fail_eq env tr data s h]
  · intro s h
    exact init_fail_status env tr sensor_id s h

theorem failure_status_by_kind_witness :
    ReadFailsAt corruptBus [] ReadStep.humidityCrc ∧
      (GXHTC3_ReadHumidityTemp corruptBus [] ⟨0, 0, 0⟩).1 = HAL_ERROR :=
  ⟨by decide,
    (failure_status_by_kind corruptBus [] ⟨0, 0, 0⟩ none).1 ReadStep.humidityCrc (by decide)⟩

/-- C7 (as stated) fails: a read that fails for a checksum mismatch and a read
that fails because the wake transmit did not complete return the same status,
and so do two such runs of the initialization. -/
theorem integrity_and_transport_failure_same_status :
    ReadFailsAt corruptBus [] ReadStep.humidityCrc ∧
      ReadFailsAt deadBus [] ReadStep.wake ∧
      (GXHTC3_ReadHumidityTemp corruptBus [] ⟨0, 0, 0⟩).1 =
        (GXHTC3_ReadHumidityTemp deadBus [] ⟨0, 0, 0⟩).1 ∧
      InitFailsAt corruptBus [] true InitStep.crc ∧
      InitFailsAt deadBus [] true InitStep.wake ∧
      (GXHTC3_Init corruptBus [] (some [0, 0])).1 = (GXHTC3_Init deadBus [] (some [0, 0])).1 := by
  decide

/-- C8: whenever the wake transmit succeeds and the presence probe fails,
`GXHTC3_Init` returns the probe's non-OK status, leaves the identifier buffer
as it was, and issues exactly the wake transmit, the delay and the probe: no
transmit of the ReadSerialID command and no receive, whether or not an
identifier was requested. -/
theorem init_probe_failure (env : Transport) (tr : List Call)
    (sensor_id : Option (List Nat))
    (hwake : (wakeReply env tr).status = HAL_OK)
    (hprobe : (probeReply env tr).status ≠ HAL_OK) :
    GXHTC3_Init env tr sensor_id =
        ((probeReply env tr).status, sensor_id, tr ++ [wakeCall, wakeDelay, probeCall]) ∧
      (GXHTC3_Init env tr sensor_id).1 ≠ HAL_OK ∧
      (∀ c ∈ [wakeCall, wakeDelay, probeCall],
        Call.transmits GXHTC3_CMD_READ_ID c = false ∧ Call.isReceive c = false) := by
  have key : GXHTC3_Init env tr sensor_id =
      ((probeReply env tr).status, sensor_id, tr ++ [wakeCall, wakeDelay, probeCall]) := by
    rw [init_eq]
    simp [hwake, hprobe]
  refine ⟨key, ?_, by decide⟩
  rw [key]
  exact hprobe

theorem init_probe_failure_witness :
    ((wakeReply absentBus []).status = HAL_OK ∧ (probeReply absentBus []).status ≠ HAL_OK) ∧
      GXHTC3_Init absentBus [] (some [1, 2]) =
        (HAL_TIMEOUT, some [1, 2], [wakeCall, wakeDelay, probeCall]) :=
  ⟨by decide, (init_probe_failure absentBus [] (some [1, 2]) (by decide) (by decide)).1⟩

theorem set_two_bytes (id : List Nat) (b0 b1 : Nat) (h : 2 ≤ id.length) :
    (id.set 0 b0).set 1 b1 = b0 :: b1 :: id.drop 2 := by
  match id, h with
  | _ :: _ :: rest, _ => simp

/-- C9: `GXHTC3_Init` with an identifier requested (into a buffer of at least
two bytes) returns `HAL_OK` exactly when the wake transmit, the presence probe,
the ReadSerialID transmit and the 3-byte receive all succeed and the received
checksum byte validates the two data bytes; in that case the first two bytes
of the identifier buffer are the first two received bytes in order; in every
failing run the status is not `HAL_OK` and the buffer is left unchanged. -/
theorem init_with_id (env : Transport) (tr : List Call) (id : List Nat)
    (hlen : 2 ≤ id.length) :
    ((GXHTC3_Init env tr (some id)).1 = HAL_OK ↔ InitIdSucceeds env tr) ∧
      (InitIdSucceeds env tr →
        (GXHTC3_Init env tr (some id)).2.1 =
          some ((idBuf env tr).getD 0 0 :: (idBuf env tr).getD 1 0 :: id.drop 2)) ∧
      ((GXHTC3_Init env tr (some id)).1 ≠ HAL_OK →
        (GXHTC3_Init env tr (some id)).2.1 = some id) := by
  rw [init_eq]
  unfold InitIdSucceeds
  simp only [set_two_bytes id _ _ hlen]
  split_ifs with h1 h2 h3 h4 h5
  · simp [h1]
  · simp [h2]
  · simp [h3]
  · simp [h4]
  · exact ⟨⟨fun _ => ⟨not_not.1 h1, not_not.1 h2, not_not.1 h3, not_not.1 h4, h5⟩,
      fun _ => rfl⟩, fun _ => rfl, fun h => absurd rfl h⟩
  · simp [h5]

theorem init_with_id_witness :
    (2 ≤ [1, 2].length ∧ InitIdSucceeds goodBus []) ∧
      (GXHTC3_Init goodBus [] (some [1, 2])).2.1 = some [0xBE, 0xEF] :=
  ⟨by decide, (init_with_id goodBus [] [1, 2] (by decide)).2.1 (by decide)⟩

/-- The calls `GXHTC3_Init` can issue. -/
theorem init_calls (env : Transport) (tr : List Call) (sensor_id : Option (List Nat)) :
    ∃ issued, (GXHTC3_Init env tr sensor_id).2.2 = tr ++ issued ∧
      issued <+: [wakeCall, wakeDelay, probeCall, readIdCall, receiveCall 3] := by
  rw [init_eq]
  cases sensor_id with
  | none =>
    simp only []
    split_ifs <;> exact ⟨_, rfl, by decide⟩
  | some id =>
    simp only []
    split_ifs <;> exact ⟨_, rfl, by decide⟩

/-- C10: `GXHTC3_Init` never transmits the Sleep command, on any path; and
when no identifier is requested a successful run issues exactly the wake
transmit, the delay and the presence probe, with no ReadSerialID transmit and
no receive, and returns `HAL_OK`. -/
theorem init_never_sleeps (env : Transport) (tr : List Call)
    (sensor_id : Option (List Nat)) :
    (∃ issued, (GXHTC3_Init env tr sensor_id).2.2 = tr ++ issued ∧
        ∀ c ∈ issued, Call.transmits GXHTC3_CMD_SLEEP c = false) ∧
      ((GXHTC3_Init env tr none).1 = HAL_OK →
        GXHTC3_Init env tr none = (HAL_OK, none, tr ++ [wakeCall, wakeDelay, probeCall])) ∧
      ((wakeReply env tr).status = HAL_OK → (probeReply env tr).status = HAL_OK →
        GXHTC3_Init env tr none = (HAL_OK, none, tr ++ [wakeCall, wakeDelay, probeCall])) ∧
      (∀ c ∈ [wakeCall, wakeDelay, probeCall],
        Call.transmits GXHTC3_CMD_READ_ID c = false ∧ Call.isReceive c = false) := by
  refine ⟨?_, ?_, ?_, by decide⟩
  · obtain ⟨issued, h1, h2⟩ := init_calls env tr sensor_id
    refine ⟨issued, h1, ?_⟩
    intro c hc
    have hall : ∀ c ∈ [wakeCall, wakeDelay, probeCall, readIdCall, receiveCall 3],
        Call.transmits GXHTC3_CMD_SLEEP c = false := by decide
    exact hall c (h2.subset hc)
  · rw [init_eq]
    simp only []
    split_ifs with h1 h2
    · intro h
      exact absurd h h1
    · intro h
      exact absurd h h2
    · intro _
      rfl
  · intro h1 h2
    rw [init_eq]
    simp [h1, h2]

theorem init_never_sleeps_witness :
    (GXHTC3_Init goodBus [] none).1 = HAL_OK ∧
      GXHTC3_Init goodBus [] none = (HAL_OK, none, [wakeCall, wakeDelay, probeCall]) :=
  ⟨by decide, (init_never_sleeps goodBus [] none).2.1 (by decide)⟩

/-! ## `GXHTC3_SoftReset` and `GXHTC3_EnterSleep` -/

theorem sendCmd_softReset (env : Transport) (tr : List Call) :
    GXHTC3_SendCmd env tr GXHTC3_CMD_SOFT_RESET =
      ((env tr softResetCall).status, tr ++ [softResetCall]) :=
  rfl

/-- The function `GXHTC3_SoftReset` as a decision over the transport's answer. -/
theorem softReset_eq (env : Transport) (tr : List Call) :
    GXHTC3_SoftReset env tr =
      if (env tr softResetCall).status ≠ HAL_OK then
        ((env tr softResetCall).status, tr ++ [softResetCall])
      else (HAL_OK, tr ++ [softResetCall, resetDelay]) := by
  unfold GXHTC3_SoftReset HAL_Delay_us
  simp only [sendCmd_softReset, List.append_assoc, List.cons_append, List.nil_append]
  rfl

/-- C11: `GXHTC3_SoftReset` issues exactly one bus transaction, the transmit of
the SoftReset command `{0x80, 0x5D}`; if that transmit succeeds it then delays
500 microseconds and returns `HAL_OK`, and if it fails it returns the
transport's status without any delay; it returns `HAL_OK` if and only if the
command transmitted, and performs no receive and no probe. -/
theorem softReset_spec (env : Transport) (tr : List Call) :
    ((env tr softResetCall).status = HAL_OK →
        GXHTC3_SoftReset env tr =
          (HAL_OK, tr ++ [Call.transmit 0xE0 [0x80, 0x5D] 2 1000, Call.delay_us 500])) ∧
      ((env tr softResetCall).status ≠ HAL_OK →
        GXHTC3_SoftReset env tr =
          ((env tr softResetCall).status, tr ++ [Call.transmit 0xE0 [0x80, 0x5D] 2 1000])) ∧
      ((GXHTC3_SoftReset env tr).1 = HAL_OK ↔ (env tr softResetCall).status = HAL_OK) ∧
      (∃ issued, (GXHTC3_SoftReset env tr).2 = tr ++ issued ∧
        issued.filter Call.isBus = [Call.transmit 0xE0 [0x80, 0x5D] 2 1000] ∧
        ∀ c ∈ issued, Call.isReceive c = false ∧ Call.isProbe c = false) := by
  rw [softReset_eq]
  by_cases h : (env tr softResetCall).status = HAL_OK
  · rw [if_neg (not_not.2 h)]
    exact ⟨fun _ => rfl, fun h' => absurd h h', ⟨fun _ => h, fun _ => rfl⟩,
      ⟨_, rfl, by decide, by decide⟩⟩
  · rw [if_pos h]
    exact ⟨fun h' => absurd h' h, fun _ => rfl, ⟨fun h' => absurd h' h, fun h' => absurd h' h⟩,
      ⟨_, rfl, by decide, by decide⟩⟩

theorem softReset_spec_witness :
    (goodBus [] softResetCall).status = HAL_OK ∧
      GXHTC3_SoftReset goodBus [] =
        (HAL_OK, [Call.transmit 0xE0 [0x80, 0x5D] 2 1000, Call.delay_us 500]) :=
  ⟨by decide, (softReset_spec goodBus []).1 (by decide)⟩

/-- C12: `GXHTC3_EnterSleep` issues exactly one collaborator call, the transmit
of the Sleep command `{0xB0, 0x98}`, with no delay, no probe and no receive,
and its result is the status returned by that transmit. -/
theorem enterSleep_spec (env : Transport) (tr : List Call) :
    GXHTC3_EnterSleep env tr =
        ((env tr (Call.transmit 0xE0 [0xB0, 0x98] 2 1000)).status,
          tr ++ [Call.transmit 0xE0 [0xB0, 0x98] 2 1000]) ∧
      [Call.transmit 0xE0 [0xB0, 0x98] 2 1000].length = 1 ∧
      (∀ c ∈ [Call.transmit 0xE0 [0xB0, 0x98] 2 1000],
        Call.isDelay c = false ∧ Call.isProbe c = false ∧ Call.isReceive c = false) := by
  refine ⟨?_, rfl, by decide⟩
  unfold GXHTC3_EnterSleep
  rw [sendCmd_sleep]
  rfl

/-! ## The calls of the four operations -/

theorem read_calls (env : Transport) (tr : List Call) (data : GXHTC3_DataTypedef) :
    ∃ issued, (GXHTC3_ReadHumidityTemp env tr data).2.2 = tr ++ issued ∧
      issued ∈ readCallSequences := by
  rw [readHumidityTemp_eq]
  split_ifs <;> exact ⟨_, rfl, by decide⟩

theorem init_call_sequences (env : Transport) (tr : List Call)
    (sensor_id : Option (List Nat)) :
    ∃ issued, (GXHTC3_Init env tr sensor_id).2.2 = tr ++ issued ∧
      issued ∈ initCallSequences := by
  rw [init_eq]
  cases sensor_id with
  | none =>
    simp only []
    split_ifs <;> exact ⟨_, rfl, by decide⟩
  | some id =>
    simp only []
    split_ifs <;> exact ⟨_, rfl, by decide⟩

theorem softReset_calls (env : Transport) (tr : List Call) :
    ∃ issued, (GXHTC3_SoftReset env tr).2 = tr ++ issued ∧
      issued ∈ softResetCallSequences := by
  rw [softReset_eq]
  split_ifs <;> exact ⟨_, rfl, by decide⟩

theorem enterSleep_calls (env : Transport) (tr : List Call) :
    (GXHTC3_EnterSleep env tr).2 = tr ++ [sleepCall] := by
  unfold GXHTC3_EnterSleep
  rw [sendCmd_sleep]

/-- C15: in every execution of the four public operations, for every transport
behaviour, every transmitted payload is one of the fixed wire codes, sent by
the operation it belongs to: `GXHTC3_Init` transmits only Wakeup `0x3517` and
ReadSerialID `0xEFC8`, `GXHTC3_ReadHumidityTemp` only Wakeup,
MeasureHumidityFirst `0x5C24` and Sleep `0xB098`, `GXHTC3_SoftReset` only
SoftReset `0x805D`, `GXHTC3_EnterSleep` only Sleep; MeasureTemperatureFirst is
defined as `0x7CA2` and is transmitted by none of them. -/
theorem transmitted_wire_codes (env : Transport) (tr : List Call)
    (sensor_id : Option (List Nat)) (data : GXHTC3_DataTypedef) :
    (∃ issued, (GXHTC3_Init env tr sensor_id).2.2 = tr ++ issued ∧
        transmitsOnly [0x3517, 0xEFC8] issued = true) ∧
      (∃ issued, (GXHTC3_ReadHumidityTemp env tr data).2.2 = tr ++ issued ∧
        transmitsOnly [0x3517, 0x5C24, 0xB098] issued = true) ∧
      (∃ issued, (GXHTC3_SoftReset env tr).2 = tr ++ issued ∧
        transmitsOnly [0x805D] issued = true) ∧
      (∃ issued, (GXHTC3_EnterSleep env tr).2 = tr ++ issued ∧
        transmitsOnly [0xB098] issued = true) ∧
      GXHTC3_CMD_MEASURE_TEMP = 0x7CA2 ∧
      [GXHTC3_CMD_WAKEUP, GXHTC3_CMD_SLEEP, GXHTC3_CMD_SOFT_RESET, GXHTC3_CMD_READ_ID,
        GXHTC3_CMD_MEASURE_HUM] = [0x3517, 0xB098, 0x805D, 0xEFC8, 0x5C24] ∧
      ¬ (0x7CA2 ∈ [0x3517, 0xB098, 0x805D, 0xEFC8, 0x5C24]) := by
  refine ⟨?_, ?_, ?_, ?_, rfl, rfl, by decide⟩
  · obtain ⟨issued, h1, h2⟩ := init_call_sequences env tr sensor_id
    refine ⟨issued, h1, ?_⟩
    have hall : ∀ l ∈ initCallSequences, transmitsOnly [0x3517, 0xEFC8] l = true := by decide
    exact hall issued h2
  · obtain ⟨issued, h1, h2⟩ := read_calls env tr data
    refine ⟨issued, h1, ?_⟩
    have hall : ∀ l ∈ readCallSequences, transmitsOnly [0x3517, 0x5C24, 0xB098] l = true := by
      decide
    exact hall issued h2
  · obtain ⟨issued, h1, h2⟩ := softReset_calls env tr
    refine ⟨issued, h1, ?_⟩
    have hall : ∀ l ∈ softResetCallSequences, transmitsOnly [0x805D] l = true := by decide
    exact hall issued h2
  · exact ⟨_, enterSleep_calls env tr, by decide⟩

/-- C16: every bus transaction issued by the four public operations uses the
addressing and timeout of the specification: every transmit and the presence
probe target the write address `(0x70 << 1) | 0 = 0xE0`, every receive targets
the read address `(0x70 << 1) | 1 = 0xE1`, each with a timeout of 1000 ms, and
the two addresses differ only in the lowest bit. -/
theorem bus_addressing (env : Transport) (tr : List Call)
    (sensor_id : Option (List Nat)) (data : GXHTC3_DataTypedef) :
    (∃ issued, (GXHTC3_Init env tr sensor_id).2.2 = tr ++ issued ∧
        ∀ c ∈ issued, Call.wellAddressed c = true) ∧
      (∃ issued, (GXHTC3_ReadHumidityTemp env tr data).2.2 = tr ++ issued ∧
        ∀ c ∈ issued, Call.wellAddressed c = true) ∧
      (∃ issued, (GXHTC3_SoftReset env tr).2 = tr ++ issued ∧
        ∀ c ∈ issued, Call.wellAddressed c = true) ∧
      (∃ issued, (GXHTC3_EnterSleep env tr).2 = tr ++ issued ∧
        ∀ c ∈ issued, Call.wellAddressed c = true) ∧
      GXHTC3_I2C_ADDR_WRITE = 0xE0 ∧ GXHTC3_I2C_ADDR_READ = 0xE1 ∧
      GXHTC3_I2C_TIMEOUT_MS = 1000 ∧
      GXHTC3_I2C_ADDR_WRITE ^^^ GXHTC3_I2C_ADDR_READ = 1 := by
  refine ⟨?_, ?_, ?_, ?_, by decide, by decide, rfl, by decide⟩
  · obtain ⟨issued, h1, h2⟩ := init_call_sequences env tr sensor_id
    refine ⟨issued, h1, ?_⟩
    have hall : ∀ l ∈ initCallSequences, ∀ c ∈ l, Call.wellAddressed c = true := by decide
    exact hall issued h2
  · obtain ⟨issued, h1, h2⟩ := read_calls env tr data
    refine ⟨issued, h1, ?_⟩
    have hall : ∀ l ∈ readCallSequences, ∀ c ∈ l, Call.wellAddressed c = true := by decide
    exact hall issued h2
  · obtain ⟨issued, h1, h2⟩ := softReset_calls env tr
    refine ⟨issued, h1, ?_⟩
    have hall : ∀ l ∈ softResetCallSequences, ∀ c ∈ l, Call.wellAddressed c = true := by
      decide
    exact hall issued h2
  · exact ⟨_, enterSleep_calls env tr, by decide⟩

/-- C17: in every execution of `GXHTC3_Init` and of `GXHTC3_ReadHumidityTemp`
the first collaborator call is the transmit of the Wakeup command
`{0x35, 0x17}`, and whenever that transmit succeeds the next call is a delay of
`GXHTC3_WAKEUP_DELAY_US = 50` microseconds, at least 40, before any further
bus transaction. -/
theorem wake_first_then_delay (env : Transport) (tr : List Call)
    (sensor_id : Option (List Nat)) (data : GXHTC3_DataTypedef) :
    (∃ rest, (GXHTC3_Init env tr sensor_id).2.2 =
          tr ++ Call.transmit 0xE0 [0x35, 0x17] 2 1000 :: rest ∧
        ((wakeReply env tr).status = HAL_OK →
          ∃ rest', rest = Call.delay_us GXHTC3_WAKEUP_DELAY_US :: rest')) ∧
      (∃ rest, (GXHTC3_ReadHumidityTemp env tr data).2.2 =
          tr ++ Call.transmit 0xE0 [0x35, 0x17] 2 1000 :: rest ∧
        ((wakeReply env tr).status = HAL_OK →
          ∃ rest', rest = Call.delay_us GXHTC3_WAKEUP_DELAY_US :: rest')) ∧
      GXHTC3_WAKEUP_DELAY_US = 50 ∧ 40 ≤ GXHTC3_WAKEUP_DELAY_US := by
  refine ⟨?_, ?_, rfl, by decide⟩
  · rw [init_eq]
    by_cases h1 : (wakeReply env tr).status = HAL_OK
    · rw [if_neg (not_not.2 h1)]
      cases sensor_id with
      | none =>
        simp only []
        split_ifs <;> exact ⟨_, rfl, fun _ => ⟨_, rfl⟩⟩
      | some id =>
        simp only []
        split_ifs <;> exact ⟨_, rfl, fun _ => ⟨_, rfl⟩⟩
    · rw [if_pos h1]
      exact ⟨_, rfl, fun h => absurd h h1⟩
  · rw [readHumidityTemp_eq]
    by_cases h1 : (wakeReply env tr).status = HAL_OK
    · rw [if_neg (not_not.2 h1)]
      split_ifs <;> exact ⟨_, rfl, fun _ => ⟨_, rfl⟩⟩
    · rw [if_pos h1]
      exact ⟨_, rfl, fun h => absurd h h1⟩

theorem wake_first_then_delay_witness :
    (wakeReply goodBus []).status = HAL_OK ∧
      (GXHTC3_ReadHumidityTemp goodBus [] ⟨0, 0, 0⟩).2.2.take 2 =
        [Call.transmit 0xE0 [0x35, 0x17] 2 1000, Call.delay_us 50] := by
  refine ⟨by decide, ?_⟩
  obtain ⟨rest, h1, h2⟩ := (wake_first_then_delay goodBus [] none ⟨0, 0, 0⟩).2.1
  obtain ⟨rest', h3⟩ := h2 (by decide)
  rw [h1, h3]
  rfl

/-! ## The Sleep transmit does not influence the result of a read -/

theorem withSleepReply_wake (env : Transport) (r : Reply) (tr : List Call) :
    wakeReply (withSleepReply env r) tr = wakeReply env tr := rfl

theorem withSleepReply_measure (env : Transport) (r : Reply) (tr : List Call) :
    measureReply (withSleepReply env r) tr = measureReply env tr := rfl

theorem withSleepReply_read (env : Transport) (r : Reply) (tr : List Call) :
    readReply (withSleepReply env r) tr = readReply env tr := rfl

theorem withSleepReply_result (env : Transport) (r : Reply) (tr : List Call)
    (data : GXHTC3_DataTypedef) :
    GXHTC3_ReadHumidityTemp (withSleepReply env r) tr data =
      GXHTC3_ReadHumidityTemp env tr data := by
  rw [readHumidityTemp_eq, readHumidityTemp_eq]
  simp only [withSleepReply_wake, withSleepReply_measure, humidityCrcOk, temperatureCrcOk,
    readRaw, withSleepReply_read]

/-- C19: the result of `GXHTC3_ReadHumidityTemp` does not depend on the outcome
of the final Sleep transmit: replacing the transport's answer to the Sleep
transmit by any other answer leaves status and output unchanged; when all
earlier steps succeed the status is `HAL_OK` with `is_valid = 1`, and on a
failure path the status is that of the first failing step (the transport's
status for a transmit or receive, `HAL_ERROR` for a checksum mismatch). -/
theorem read_status_ignores_sleep (env : Transport) (r : Reply) (tr : List Call)
    (data : GXHTC3_DataTypedef) :
    (∀ tr', withSleepReply env r tr' sleepCall = r) ∧
      GXHTC3_ReadHumidityTemp (withSleepReply env r) tr data =
        GXHTC3_ReadHumidityTemp env tr data ∧
      ((wakeReply env tr).status = HAL_OK → (measureReply env tr).status = HAL_OK →
        (readReply env tr).status = HAL_OK → humidityCrcOk env tr → temperatureCrcOk env tr →
        (GXHTC3_ReadHumidityTemp (withSleepReply env r) tr data).1 = HAL_OK ∧
          (GXHTC3_ReadHumidityTemp (withSleepReply env r) tr data).2.1.is_valid = 1) ∧
      (∀ s, ReadFailsAt env tr s →
        (GXHTC3_ReadHumidityTemp (withSleepReply env r) tr data).1 =
          readFailStatus env tr s) := by
  refine ⟨fun _ => rfl, withSleepReply_result env r tr data, ?_, ?_⟩
  · intro h1 h2 h3 h4 h5
    rw [withSleepReply_result, readHumidityTemp_eq]
    simp only [h1, h2, h3, h4, h5, ne_eq, not_true_eq_false, if_false, and_self]
  · intro s hs
    rw [withSleepReply_result, read_fail_eq env tr data s hs]

theorem read_status_ignores_sleep_witness :
    ((wakeReply goodBus []).status = HAL_OK ∧ (measureReply goodBus []).status = HAL_OK ∧
        (readReply goodBus []).status = HAL_OK ∧ humidityCrcOk goodBus [] ∧
        temperatureCrcOk goodBus [] ∧
        (withSleepReply goodBus ⟨HAL_ERROR, []⟩
          [wakeCall, wakeDelay, measureCall, receiveCall 6] sleepCall).status = HAL_ERROR) ∧
      (GXHTC3_ReadHumidityTemp (withSleepReply goodBus ⟨HAL_ERROR, []⟩) [] ⟨0, 0, 0⟩).1 =
        HAL_OK :=
  ⟨by decide,
    ((read_status_ignores_sleep goodBus ⟨HAL_ERROR, []⟩ [] ⟨0, 0, 0⟩).2.2.1
      (by decide) (by decide) (by decide) (by decide) (by decide)).1⟩

/-! ## Rounding -/

theorem roundHalfEven_cases (x : ℚ) :
    roundHalfEven x = ⌊x⌋ ∨ (roundHalfEven x = ⌊x⌋ + 1 ∧ (1 : ℚ) / 2 ≤ x - ⌊x⌋) := by
  unfold roundHalfEven
  simp only []
  split_ifs with h1 h2 h3
  · exact Or.inl rfl
  · exact Or.inr ⟨rfl, le_of_lt h2⟩
  · exact Or.inl rfl
  · exact Or.inr ⟨rfl, not_lt.1 h1⟩

theorem roundHalfEven_le {x : ℚ} {n : Int} (h : x ≤ n) : roundHalfEven x ≤ n := by
  have hf : ⌊x⌋ ≤ n := by
    have : ((⌊x⌋ : Int) : ℚ) ≤ n := le_trans (Int.floor_le x) h
    exact_mod_cast this
  rcases roundHalfEven_cases x with h1 | ⟨h1, h2⟩
  · rw [h1]
    exact hf
  · rw [h1]
    have h3 : ((⌊x⌋ : Int) : ℚ) < n := by linarith
    have h4 : ⌊x⌋ < n := by exact_mod_cast h3
    omega

theorem le_roundHalfEven {x : ℚ} {n : Int} (h : (n : ℚ) ≤ x) : n ≤ roundHalfEven x := by
  have hf : n ≤ ⌊x⌋ := Int.le_floor.2 h
  rcases roundHalfEven_cases x with h1 | ⟨h1, _⟩
  · rw [h1]
    exact hf
  · rw [h1]
    omega

theorem roundHalfEven_intCast (n : Int) : roundHalfEven (n : ℚ) = n :=
  le_antisymm (roundHalfEven_le le_rfl) (le_roundHalfEven le_rfl)

theorem roundHalfEven_err (x : ℚ) : |(roundHalfEven x : ℚ) - x| ≤ 1 / 2 := by
  have hlt := Int.lt_floor_add_one x
  have hle := Int.floor_le x
  unfold roundHalfEven
  simp only []
  rw [abs_le]
  split_ifs with h1 h2 h3
  · constructor <;> linarith
  · push_cast
    constructor <;> linarith
  · constructor <;> linarith
  · push_cast
    constructor <;> linarith

theorem fpRound_eq (p : Nat) (emin : Int) (q : ℚ) :
    fpRound p emin q =
      roundHalfEven (q / 2 ^ ulpExp p emin q) * 2 ^ ulpExp p emin q := rfl

theorem two_zpow_pos (k : Int) : (0 : ℚ) < 2 ^ k := zpow_pos (by norm_num) k

theorem fpRound_zero (p : Nat) (emin : Int) : fpRound p emin 0 = 0 := by
  rw [fpRound_eq, zero_div]
  have h := roundHalfEven_intCast 0
  rw [Int.cast_zero] at h
  rw [h, Int.cast_zero, zero_mul]

theorem ulpExp_ge (p : Nat) (emin : Int) (q : ℚ) :
    emin - ((p : Int) - 1) ≤ ulpExp p emin q := by
  unfold ulpExp
  have := le_max_right (Int.log 2 |q|) emin
  omega

theorem ulpExp_le {p : Nat} {emin : Int} {q : ℚ} {k : Int} (hq0 : q ≠ 0)
    (hq : |q| < 2 ^ (k + (p : Int))) (hk : emin - ((p : Int) - 1) ≤ k) :
    ulpExp p emin q ≤ k := by
  unfold ulpExp
  have hq' : |q| < ((2 : ℕ) : ℚ) ^ (k + (p : Int)) := by
    rw [Nat.cast_ofNat]
    exact hq
  have hl : Int.log 2 |q| < k + (p : Int) :=
    (Int.lt_zpow_iff_log_lt one_lt_two (abs_pos.2 hq0)).1 hq'
  have hm : max (Int.log 2 |q|) emin ≤ k + (p : Int) - 1 := max_le (by omega) (by omega)
  omega

theorem abs_lt_ulpExp (p : Nat) (emin : Int) (q : ℚ) :
    |q| < 2 ^ (ulpExp p emin q + (p : Int)) := by
  have h1 : |q| < ((2 : ℕ) : ℚ) ^ (Int.log 2 |q| + 1) := Int.lt_zpow_succ_log_self one_lt_two _
  rw [Nat.cast_ofNat] at h1
  have h2 : Int.log 2 |q| + 1 ≤ ulpExp p emin q + (p : Int) := by
    unfold ulpExp
    have := le_max_left (Int.log 2 |q|) emin
    omega
  exact lt_of_lt_of_le h1 (zpow_le_zpow_right₀ (by norm_num) h2)

/-- A multiple of `2 ^ k` is a multiple of `2 ^ j` for `j ≤ k`. -/
theorem multiple_of_le {b : ℚ} {N j k : Int} (hjk : j ≤ k) (hb : b = N * 2 ^ k) :
    ∃ M : Int, b = M * 2 ^ j := by
  refine ⟨N * 2 ^ (k - j).toNat, ?_⟩
  have h1 : ((k - j).toNat : Int) = k - j := Int.toNat_of_nonneg (by omega)
  have h2 : (2 : ℚ) ^ k = 2 ^ (k - j).toNat * 2 ^ j := by
    rw [← zpow_natCast, h1, ← zpow_add₀ (by norm_num)]
    congr 1
    omega
  rw [hb, h2]
  push_cast
  ring

theorem fpRound_le_of_multiple {p : Nat} {emin : Int} {q b : ℚ} {N : Int}
    (hb : b = N * 2 ^ ulpExp p emin q) (h : q ≤ b) : fpRound p emin q ≤ b := by
  have hu := two_zpow_pos (ulpExp p emin q)
  rw [fpRound_eq, hb]
  have h1 : q / 2 ^ ulpExp p emin q ≤ N := by
    rw [div_le_iff₀ hu, ← hb]
    exact h
  have h2 : ((roundHalfEven (q / 2 ^ ulpExp p emin q) : Int) : ℚ) ≤ N := by
    exact_mod_cast roundHalfEven_le h1
  exact mul_le_mul_of_nonneg_right h2 (le_of_lt hu)

theorem le_fpRound_of_multiple {p : Nat} {emin : Int} {q b : ℚ} {N : Int}
    (hb : b = N * 2 ^ ulpExp p emin q) (h : b ≤ q) : b ≤ fpRound p emin q := by
  have hu := two_zpow_pos (ulpExp p emin q)
  rw [fpRound_eq, hb]
  have h1 : (N : ℚ) ≤ q / 2 ^ ulpExp p emin q := by
    rw [le_div_iff₀ hu, ← hb]
    exact h
  have h2 : (N : ℚ) ≤ ((roundHalfEven (q / 2 ^ ulpExp p emin q) : Int) : ℚ) := by
    exact_mod_cast le_roundHalfEven h1
  exact mul_le_mul_of_nonneg_right h2 (le_of_lt hu)

/-- Rounding does not cross a multiple of `2 ^ k` from below, for `q` in the
range where the spacing of the format is at most `2 ^ k`. -/
theorem fpRound_le {p : Nat} {emin : Int} {q b : ℚ} (N k : Int)
    (hq : |q| < 2 ^ (k + (p : Int))) (hk : emin - ((p : Int) - 1) ≤ k)
    (hb : b = N * 2 ^ k) (h : q ≤ b) : fpRound p emin q ≤ b := by
  by_cases hq0 : q = 0
  · rw [hq0, fpRound_zero]
    rw [hq0] at h
    exact h
  · obtain ⟨M, hM⟩ := multiple_of_le (ulpExp_le hq0 hq hk) hb
    exact fpRound_le_of_multiple hM h

/-- Rounding does not cross a multiple of `2 ^ k` from above. -/
theorem le_fpRound {p : Nat} {emin : Int} {q b : ℚ} (N k : Int)
    (hq : |q| < 2 ^ (k + (p : Int))) (hk : emin - ((p : Int) - 1) ≤ k)
    (hb : b = N * 2 ^ k) (h : b ≤ q) : b ≤ fpRound p emin q := by
  by_cases hq0 : q = 0
  · rw [hq0, fpRound_zero]
    rw [hq0] at h
    exact h
  · obtain ⟨M, hM⟩ := multiple_of_le (ulpExp_le hq0 hq hk) hb
    exact le_fpRound_of_multiple hM h

/-- A multiple of `2 ^ k` in the range where the spacing is at most `2 ^ k` is
a value of the format: rounding leaves it unchanged. -/
theorem fpRound_exact {p : Nat} {emin : Int} {q : ℚ} (N k : Int)
    (hq : |q| < 2 ^ (k + (p : Int))) (hk : emin - ((p : Int) - 1) ≤ k)
    (hN : q = N * 2 ^ k) : fpRound p emin q = q :=
  le_antisymm (fpRound_le N k hq hk hN le_rfl) (le_fpRound N k hq hk hN le_rfl)

/-- The rounding error is at most half the spacing. -/
theorem fpRound_err {p : Nat} {emin : Int} {q : ℚ} (k : Int)
    (hq : |q| < 2 ^ (k + (p : Int))) (hk : emin - ((p : Int) - 1) ≤ k) :
    |fpRound p emin q - q| ≤ 2 ^ k / 2 := by
  by_cases hq0 : q = 0
  · rw [hq0, fpRound_zero, sub_zero, abs_zero]
    exact le_of_lt (div_pos (two_zpow_pos k) (by norm_num))
  · have hu := two_zpow_pos (ulpExp p emin q)
    have hle : (2 : ℚ) ^ ulpExp p emin q ≤ 2 ^ k :=
      zpow_le_zpow_right₀ (by norm_num) (ulpExp_le hq0 hq hk)
    have herr := roundHalfEven_err (q / 2 ^ ulpExp p emin q)
    have h1 : fpRound p emin q - q =
        ((roundHalfEven (q / 2 ^ ulpExp p emin q) : ℚ) - q / 2 ^ ulpExp p emin q) *
          2 ^ ulpExp p emin q := by
      rw [fpRound_eq]
      field_simp
    rw [h1, abs_mul, abs_of_pos hu]
    calc |(roundHalfEven (q / 2 ^ ulpExp p emin q) : ℚ) - q / 2 ^ ulpExp p emin q| *
          2 ^ ulpExp p emin q
        ≤ 1 / 2 * 2 ^ ulpExp p emin q := mul_le_mul_of_nonneg_right herr (le_of_lt hu)
      _ ≤ 1 / 2 * 2 ^ k := mul_le_mul_of_nonneg_left hle (by norm_num)
      _ = 2 ^ k / 2 := by ring

/-! ## The conversions in `float` arithmetic -/

theorem two_zpow_24 : (2 : ℚ) ^ ((0 : Int) + ((24 : ℕ) : Int)) = 16777216 := by norm_num

theorem f32Round_intCast {n : Int} (h : |n| < 16777216) : f32Round (n : ℚ) = n := by
  unfold f32Round
  apply fpRound_exact n 0
  · rw [two_zpow_24]
    have : ((|n| : Int) : ℚ) < ((16777216 : Int) : ℚ) := by exact_mod_cast h
    rw [Int.cast_abs] at this
    exact_mod_cast this
  · norm_num
  · simp

theorem f32Round_natCast {n : Nat} (h : n < 16777216) : f32Round (n : ℚ) = n := by
  have h1 := @f32Round_intCast (n : Int) (by rw [abs_of_nonneg (by positivity)]; omega)
  exact_mod_cast h1

/-- An upper bound by an integer survives rounding to `float`. -/
theorem f32Round_le_int {q : ℚ} (N : Int) (hq : |q| < 16777216) (h : q ≤ N) :
    f32Round q ≤ N := by
  unfold f32Round
  exact fpRound_le N 0 (by rw [two_zpow_24]; exact hq) (by norm_num) (by simp) h

/-- A lower bound by an integer survives rounding to `float`. -/
theorem int_le_f32Round {q : ℚ} (N : Int) (hq : |q| < 16777216) (h : (N : ℚ) ≤ q) :
    (N : ℚ) ≤ f32Round q := by
  unfold f32Round
  exact le_fpRound N 0 (by rw [two_zpow_24]; exact hq) (by norm_num) (by simp) h

theorem humidityOfRaw_eq {raw : Nat} (h : raw < 65536) :
    humidityOfRaw raw = f32Round ((raw : ℚ) * 100 / 65535) := by
  unfold humidityOfRaw f32Div f32Mul f32OfNat
  rw [f32Round_natCast (by omega)]
  have h1 : (raw : ℚ) * 100 = ((raw * 100 : ℕ) : ℚ) := by push_cast; ring
  rw [h1, f32Round_natCast (by omega)]

theorem temperatureOfRaw_eq {raw : Nat} (h : raw < 65536) :
    temperatureOfRaw raw = f32Round (f32Round ((raw : ℚ) * 175 / 65535) - 45) := by
  unfold temperatureOfRaw f32Sub f32Div f32Mul f32OfNat
  rw [f32Round_natCast (by omega)]
  have h1 : (raw : ℚ) * 175 = ((raw * 175 : ℕ) : ℚ) := by push_cast; ring
  rw [h1, f32Round_natCast (by omega)]

theorem scaled_bounds {raw : Nat} (h : raw < 65536) (c : ℚ) (hc : 0 ≤ c) :
    0 ≤ (raw : ℚ) * c / 65535 ∧ (raw : ℚ) * c / 65535 ≤ c := by
  have h1 : (raw : ℚ) ≤ 65535 := by
    have : raw ≤ 65535 := by omega
    exact_mod_cast this
  have h0 : (0 : ℚ) ≤ raw := Nat.cast_nonneg raw
  constructor
  · positivity
  · rw [div_le_iff₀ (by norm_num)]
    nlinarith

theorem humidityOfRaw_bounds {raw : Nat} (h : raw < 65536) :
    0 ≤ humidityOfRaw raw ∧ humidityOfRaw raw ≤ 100 := by
  obtain ⟨h0, h1⟩ := scaled_bounds h 100 (by norm_num)
  have habs : |(raw : ℚ) * 100 / 65535| < 16777216 := by
    rw [abs_of_nonneg h0]
    linarith
  rw [humidityOfRaw_eq h]
  constructor
  · have := int_le_f32Round 0 habs (by simpa using h0)
    simpa using this
  · have := f32Round_le_int 100 habs (by simpa using h1)
    simpa using this

theorem scaledTemperature_bounds {raw : Nat} (h : raw < 65536) :
    0 ≤ f32Round ((raw : ℚ) * 175 / 65535) ∧ f32Round ((raw : ℚ) * 175 / 65535) ≤ 175 := by
  obtain ⟨h0, h1⟩ := scaled_bounds h 175 (by norm_num)
  have habs : |(raw : ℚ) * 175 / 65535| < 16777216 := by
    rw [abs_of_nonneg h0]
    linarith
  constructor
  · have := int_le_f32Round 0 habs (by simpa using h0)
    simpa using this
  · have := f32Round_le_int 175 habs (by simpa using h1)
    simpa using this

theorem temperatureOfRaw_bounds {raw : Nat} (h : raw < 65536) :
    -45 ≤ temperatureOfRaw raw ∧ temperatureOfRaw raw ≤ 130 := by
  obtain ⟨h0, h1⟩ := scaledTemperature_bounds h
  have habs : |f32Round ((raw : ℚ) * 175 / 65535) - 45| < 16777216 := by
    rw [abs_lt]
    constructor <;> linarith
  rw [temperatureOfRaw_eq h]
  constructor
  · have := int_le_f32Round (-45) habs (by push_cast; linarith)
    simpa using this
  · have := f32Round_le_int 130 habs (by push_cast; linarith)
    simpa using this

theorem humidityOfRaw_zero : humidityOfRaw 0 = 0 := by
  rw [humidityOfRaw_eq (by norm_num)]
  have h := @f32Round_natCast 0 (by norm_num)
  simpa using h

theorem humidityOfRaw_max : humidityOfRaw 65535 = 100 := by
  rw [humidityOfRaw_eq (by norm_num)]
  have h := @f32Round_natCast 100 (by norm_num)
  have h2 : ((65535 : ℕ) : ℚ) * 100 / 65535 = ((100 : ℕ) : ℚ) := by norm_num
  rw [h2, h]
  norm_num

theorem temperatureOfRaw_zero : temperatureOfRaw 0 = -45 := by
  rw [temperatureOfRaw_eq (by norm_num)]
  have h := @f32Round_natCast 0 (by norm_num)
  have h2 : ((0 : ℕ) : ℚ) * 175 / 65535 = ((0 : ℕ) : ℚ) := by norm_num
  rw [h2, h]
  have h3 := @f32Round_intCast (-45) (by norm_num)
  have h4 : ((0 : ℕ) : ℚ) - 45 = ((-45 : Int) : ℚ) := by norm_num
  rw [h4, h3]
  norm_num

theorem temperatureOfRaw_max : temperatureOfRaw 65535 = 130 := by
  rw [temperatureOfRaw_eq (by norm_num)]
  have h := @f32Round_natCast 175 (by norm_num)
  have h2 : ((65535 : ℕ) : ℚ) * 175 / 65535 = ((175 : ℕ) : ℚ) := by norm_num
  rw [h2, h]
  have h3 := @f32Round_natCast 130 (by norm_num)
  have h4 : ((175 : ℕ) : ℚ) - 45 = ((130 : ℕ) : ℚ) := by norm_num
  rw [h4, h3]
  norm_num

theorem rawCode_lt (msb lsb : Nat) : rawCode msb lsb < 65536 := by
  unfold rawCode
  exact Nat.mod_lt _ (by norm_num)

/-- C13: for every raw 16-bit value the humidity conversion lies in `[0, 100]`
and the temperature conversion in `[-45, 130]`, with the endpoints attained
exactly at raw 0 and raw 65535; hence every measurement returned with
`is_valid = 1` has humidity in `[0, 100]` and temperature in `[-45, 130]`. -/
theorem conversion_ranges (raw : Nat) (h : raw < 65536) (env : Transport)
    (tr : List Call) (data : GXHTC3_DataTypedef) :
    (0 ≤ humidityOfRaw raw ∧ humidityOfRaw raw ≤ 100) ∧
      (-45 ≤ temperatureOfRaw raw ∧ temperatureOfRaw raw ≤ 130) ∧
      humidityOfRaw 0 = 0 ∧ humidityOfRaw 65535 = 100 ∧
      temperatureOfRaw 0 = -45 ∧ temperatureOfRaw 65535 = 130 ∧
      ((GXHTC3_ReadHumidityTemp env tr data).2.1.is_valid = 1 →
        (0 ≤ (GXHTC3_ReadHumidityTemp env tr data).2.1.humidity ∧
          (GXHTC3_ReadHumidityTemp env tr data).2.1.humidity ≤ 100) ∧
        (-45 ≤ (GXHTC3_ReadHumidityTemp env tr data).2.1.temperature ∧
          (GXHTC3_ReadHumidityTemp env tr data).2.1.temperature ≤ 130)) := by
  refine ⟨humidityOfRaw_bounds h, temperatureOfRaw_bounds h, humidityOfRaw_zero,
    humidityOfRaw_max, temperatureOfRaw_zero, temperatureOfRaw_max, ?_⟩
  rw [readHumidityTemp_eq]
  split_ifs
  · intro hv
    simp at hv
  · intro hv
    simp at hv
  · intro hv
    simp at hv
  · intro _
    exact ⟨humidityOfRaw_bounds (rawCode_lt _ _), temperatureOfRaw_bounds (rawCode_lt _ _)⟩
  · intro hv
    simp at hv
  · intro hv
    simp at hv

theorem conversion_ranges_witness :
    (48879 < 65536 ∧ (GXHTC3_ReadHumidityTemp goodBus [] ⟨0, 0, 0⟩).2.1.is_valid = 1) ∧
      (GXHTC3_ReadHumidityTemp goodBus [] ⟨0, 0, 0⟩).2.1.humidity ≤ 100 :=
  ⟨⟨by decide, rfl⟩,
    ((conversion_ranges 48879 (by decide) goodBus [] ⟨0, 0, 0⟩).2.2.2.2.2.2 rfl).1.2⟩

/-- The error of rounding to `float` a value below 256 in magnitude. -/
theorem f32Round_err_256 {q : ℚ} (hq : |q| < 256) : |f32Round q - q| ≤ 1 / 131072 := by
  unfold f32Round
  have h := @fpRound_err 24 (-126) q (-16) (by norm_num; exact hq) (by norm_num)
  norm_num at h ⊢
  exact h

theorem scaled_gap {a b : Nat} (hab : a < b) (c : ℚ) (hc : 0 ≤ c) :
    (a : ℚ) * c / 65535 + c / 65535 ≤ (b : ℚ) * c / 65535 := by
  have h1 : (a : ℚ) + 1 ≤ b := by exact_mod_cast hab
  have h2 : (a : ℚ) * c / 65535 + c / 65535 = ((a : ℚ) + 1) * c / 65535 := by ring
  rw [h2]
  exact div_le_div_of_nonneg_right (mul_le_mul_of_nonneg_right h1 hc) (by norm_num)

theorem humidityOfRaw_near {raw : Nat} (h : raw < 65536) :
    |humidityOfRaw raw - (raw : ℚ) * 100 / 65535| ≤ 1 / 131072 := by
  obtain ⟨h0, h1⟩ := scaled_bounds h 100 (by norm_num)
  rw [humidityOfRaw_eq h]
  apply f32Round_err_256
  rw [abs_of_nonneg h0]
  linarith

theorem temperatureOfRaw_near {raw : Nat} (h : raw < 65536) :
    |temperatureOfRaw raw - ((raw : ℚ) * 175 / 65535 - 45)| ≤ 1 / 65536 := by
  obtain ⟨h0, h1⟩ := scaled_bounds h 175 (by norm_num)
  obtain ⟨h2, h3⟩ := scaledTemperature_bounds h
  have e1 : |f32Round ((raw : ℚ) * 175 / 65535) - (raw : ℚ) * 175 / 65535| ≤ 1 / 131072 := by
    apply f32Round_err_256
    rw [abs_of_nonneg h0]
    linarith
  have e2 : |f32Round (f32Round ((raw : ℚ) * 175 / 65535) - 45) -
      (f32Round ((raw : ℚ) * 175 / 65535) - 45)| ≤ 1 / 131072 := by
    apply f32Round_err_256
    rw [abs_lt]
    constructor <;> linarith
  rw [temperatureOfRaw_eq h]
  rw [abs_le] at e1 e2 ⊢
  constructor <;> linarith [e1.1, e1.2, e2.1, e2.2]

/-- C14: both conversions, as computed in `float` arithmetic by
`GXHTC3_ReadHumidityTemp`, are strictly increasing in the raw input: for all
16-bit raw values `a < b`, the humidity of `a` is below that of `b` and the
temperature of `a` is below that of `b`. -/
theorem conversions_strictly_monotone (a b : Nat) (hab : a < b) (hb : b < 65536) :
    humidityOfRaw a < humidityOfRaw b ∧ temperatureOfRaw a < temperatureOfRaw b := by
  have ha : a < 65536 := by omega
  have g1 := scaled_gap hab 100 (by norm_num)
  have g2 := scaled_gap hab 175 (by norm_num)
  have ea := abs_le.1 (humidityOfRaw_near ha)
  have eb := abs_le.1 (humidityOfRaw_near hb)
  have ta := abs_le.1 (temperatureOfRaw_near ha)
  have tb := abs_le.1 (temperatureOfRaw_near hb)
  constructor
  · have : (0 : ℚ) < 100 / 65535 - 2 * (1 / 131072) := by norm_num
    linarith [ea.1, ea.2, eb.1, eb.2]
  · have : (0 : ℚ) < 175 / 65535 - 2 * (1 / 65536) := by norm_num
    linarith [ta.1, ta.2, tb.1, tb.2]

theorem conversions_strictly_monotone_witness :
    (16852 < 16853 ∧ 16853 < 65536) ∧ temperatureOfRaw 16852 < temperatureOfRaw 16853 :=
  ⟨by decide, (conversions_strictly_monotone 16852 16853 (by decide) (by decide)).2⟩

theorem read_fullScale :
    GXHTC3_ReadHumidityTemp fullScaleBus [] ⟨0, 0, 0⟩ =
      (HAL_OK, ⟨humidityOfRaw 65535, temperatureOfRaw 65535, 1⟩,
        [wakeCall, wakeDelay, measureCall, receiveCall 6, sleepCall]) := by
  rw [readHumidityTemp_eq]
  have h1 : (wakeReply fullScaleBus []).status = HAL_OK := rfl
  have h2 : (measureReply fullScaleBus []).status = HAL_OK := rfl
  have h3 : (readReply fullScaleBus []).status = HAL_OK := rfl
  have h4 : humidityCrcOk fullScaleBus [] := by decide
  have h5 : temperatureCrcOk fullScaleBus [] := by decide
  have h6 : readRaw fullScaleBus [] = [0xFF, 0xFF, 0xAC, 0xFF, 0xFF, 0xAC] := by decide
  simp only [h1, h2, h3, h4, h5, ne_eq, not_true_eq_false, if_false]
  rw [h6]
  rfl

/-- C18 at the failing input: for a successful read of the full-scale raw codes
`S_RH = S_T = 65535` the stored humidity is 100 and the stored temperature is
130, whereas the formulas of the comments, `100 * S_RH / 2^16` and
`-45 + 175 * S_T / 2^16`, give `1638375/16384` and `8519505/65536`; the first
of these is itself a `float` value, so the difference is not a rounding
effect. -/
theorem conversion_divides_by_65535_not_65536 :
    (GXHTC3_ReadHumidityTemp fullScaleBus [] ⟨0, 0, 0⟩).1 = HAL_OK ∧
      (GXHTC3_ReadHumidityTemp fullScaleBus [] ⟨0, 0, 0⟩).2.1.humidity = 100 ∧
      (GXHTC3_ReadHumidityTemp fullScaleBus [] ⟨0, 0, 0⟩).2.1.temperature = 130 ∧
      datasheetHumidity 65535 = 1638375 / 16384 ∧
      datasheetTemperature 65535 = 8519505 / 65536 ∧
      (GXHTC3_ReadHumidityTemp fullScaleBus [] ⟨0, 0, 0⟩).2.1.humidity ≠
        datasheetHumidity 65535 ∧
      (GXHTC3_ReadHumidityTemp fullScaleBus [] ⟨0, 0, 0⟩).2.1.temperature ≠
        datasheetTemperature 65535 ∧
      f32Round (datasheetHumidity 65535) = datasheetHumidity 65535 := by
  rw [read_fullScale]
  have d1 : datasheetHumidity 65535 = 1638375 / 16384 := by
    unfold datasheetHumidity
    norm_num
  have d2 : datasheetTemperature 65535 = 8519505 / 65536 := by
    unfold datasheetTemperature
    norm_num
  refine ⟨rfl, humidityOfRaw_max, temperatureOfRaw_max, d1, d2, ?_, ?_, ?_⟩
  · show humidityOfRaw 65535 ≠ datasheetHumidity 65535
    rw [humidityOfRaw_max, d1]
    norm_num
  · show temperatureOfRaw 65535 ≠ datasheetTemperature 65535
    rw [temperatureOfRaw_max, d2]
    norm_num
  · rw [d1]
    unfold f32Round
    apply fpRound_exact 1638375 (-14)
    · norm_num [abs_of_pos]
    · norm_num
    · norm_num

/-! ## Values of a floating-point format -/

/-- The result of rounding is an integer multiple of the spacing, with a
significand of at most `p` bits (or exactly `2 ^ p`). -/
theorem fpRound_form (p : Nat) (emin : Int) (q : ℚ) :
    ∃ N : Int, fpRound p emin q = N * 2 ^ ulpExp p emin q ∧ |N| ≤ 2 ^ p := by
  refine ⟨roundHalfEven (q / 2 ^ ulpExp p emin q), fpRound_eq p emin q, ?_⟩
  have hu := two_zpow_pos (ulpExp p emin q)
  have h1 := abs_lt_ulpExp p emin q
  rw [zpow_add₀ (by norm_num), zpow_natCast] at h1
  have h2 : |q / 2 ^ ulpExp p emin q| < 2 ^ p := by
    rw [abs_div, abs_of_pos hu, div_lt_iff₀ hu]
    linarith
  obtain ⟨h3, h4⟩ := abs_lt.1 h2
  rw [abs_le]
  constructor
  · apply le_roundHalfEven
    push_cast
    linarith
  · apply roundHalfEven_le
    push_cast
    linarith

/-- A `float` value is a multiple of `2 ^ j` for some `j ≥ -149` with
magnitude below `2 ^ (j + 24)`. -/
theorem float_form {num : ℚ} (h : f32Round num = num) :
    ∃ (N j : Int), num = N * 2 ^ j ∧ -149 ≤ j ∧ |num| < 2 ^ (j + 24) := by
  refine ⟨roundHalfEven (num / 2 ^ ulpExp 24 (-126) num), ulpExp 24 (-126) num, ?_, ?_, ?_⟩
  · have := fpRound_eq 24 (-126) num
    unfold f32Round at h
    rw [h] at this
    exact this
  · have := ulpExp_ge 24 (-126) num
    norm_num at this
    exact this
  · exact_mod_cast abs_lt_ulpExp 24 (-126) num

/-- A `float` value is an integer or has magnitude below `2 ^ 23`. -/
theorem float_integer_or_small {num : ℚ} (h : f32Round num = num) :
    (∃ z : Int, num = z) ∨ |num| < 8388608 := by
  obtain ⟨N, j, h1, _, h3⟩ := float_form h
  by_cases hj : 0 ≤ j
  · left
    refine ⟨N * 2 ^ j.toNat, ?_⟩
    have h4 : (j.toNat : Int) = j := Int.toNat_of_nonneg hj
    rw [h1]
    push_cast
    rw [← zpow_natCast, h4]
  · right
    have h4 : (2 : ℚ) ^ (j + 24) ≤ 2 ^ (23 : Int) :=
      zpow_le_zpow_right₀ (by norm_num) (by omega)
    have h5 : (2 : ℚ) ^ (23 : Int) = 8388608 := by norm_num
    linarith

theorem f32Round_ceil {num : ℚ} (h : f32Round num = num) :
    f32Round (⌈num⌉ : ℚ) = ⌈num⌉ := by
  rcases float_integer_or_small h with ⟨z, hz⟩ | hs
  · rw [hz, Int.ceil_intCast, ← hz]
    exact h
  · apply f32Round_intCast
    obtain ⟨h1, h2⟩ := abs_lt.1 hs
    have h3 := Int.ceil_lt_add_one num
    have h4 := Int.le_ceil num
    rw [abs_lt]
    constructor
    · have : ((-16777216 : Int) : ℚ) < (⌈num⌉ : ℚ) := by push_cast; linarith
      exact_mod_cast this
    · have : ((⌈num⌉ : Int) : ℚ) < ((16777216 : Int) : ℚ) := by push_cast; linarith
      exact_mod_cast this

theorem f32Round_floor {num : ℚ} (h : f32Round num = num) :
    f32Round (⌊num⌋ : ℚ) = ⌊num⌋ := by
  rcases float_integer_or_small h with ⟨z, hz⟩ | hs
  · rw [hz, Int.floor_intCast, ← hz]
    exact h
  · apply f32Round_intCast
    obtain ⟨h1, h2⟩ := abs_lt.1 hs
    have h3 := Int.lt_floor_add_one num
    have h4 := Int.floor_le num
    rw [abs_lt]
    constructor
    · have : ((-16777216 : Int) : ℚ) < (⌊num⌋ : ℚ) := by push_cast; linarith
      exact_mod_cast this
    · have : ((⌊num⌋ : Int) : ℚ) < ((16777216 : Int) : ℚ) := by push_cast; linarith
      exact_mod_cast this

/-- The fractional part of a non-negative `float` value is a `float` value:
the subtraction `num - integer_part` is exact. -/
theorem f32Round_fract {num : ℚ} (h : f32Round num = num) (h0 : 0 ≤ num) :
    f32Round (num - ⌊num⌋) = num - ⌊num⌋ := by
  obtain ⟨N, j, h1, h2, h3⟩ := float_form h
  by_cases hj : 0 ≤ j
  · have h4 : (j.toNat : Int) = j := Int.toNat_of_nonneg hj
    have h5 : num = ((N * 2 ^ j.toNat : Int) : ℚ) := by
      rw [h1]
      push_cast
      rw [← zpow_natCast, h4]
    have h6 : num - ⌊num⌋ = 0 := by
      rw [h5, Int.floor_intCast]
      ring
    rw [h6]
    exact fpRound_zero 24 (-126)
  · have h4 : ((-j).toNat : Int) = -j := Int.toNat_of_nonneg (by omega)
    have h5 : (2 : ℚ) ^ (-j).toNat * 2 ^ j = 1 := by
      rw [← zpow_natCast, h4, ← zpow_add₀ (by norm_num)]
      simp
    have hf0 : 0 ≤ num - ⌊num⌋ := by linarith [Int.floor_le num]
    have hfl : (0 : ℚ) ≤ ⌊num⌋ := by exact_mod_cast Int.floor_nonneg.2 h0
    unfold f32Round
    apply fpRound_exact (N - ⌊num⌋ * 2 ^ (-j).toNat) j
    · rw [abs_of_nonneg hf0]
      rw [abs_of_nonneg h0] at h3
      have : (2 : ℚ) ^ (j + ((24 : ℕ) : Int)) = 2 ^ (j + 24) := by norm_num
      rw [this]
      linarith
    · norm_num
      exact h2
    · push_cast
      rw [sub_mul, mul_assoc, h5, mul_one, ← h1]

/-! ## `float_to_str` -/

theorem two_zpow_52 : (2 : ℚ) ^ ((-1 : Int) + ((53 : ℕ) : Int)) = 4503599627370496 := by
  norm_num

/-- An upper bound by a half-integer survives rounding to `double`. -/
theorem f64Round_le_half {q : ℚ} (N : Int) (hq : |q| < 4503599627370496)
    (h : q ≤ (N : ℚ) / 2) : f64Round q ≤ (N : ℚ) / 2 := by
  unfold f64Round
  exact fpRound_le N (-1) (by rw [two_zpow_52]; exact hq) (by norm_num)
    (by norm_num; ring) h

/-- A lower bound by a half-integer survives rounding to `double`. -/
theorem half_le_f64Round {q : ℚ} (N : Int) (hq : |q| < 4503599627370496)
    (h : (N : ℚ) / 2 ≤ q) : (N : ℚ) / 2 ≤ f64Round q := by
  unfold f64Round
  exact le_fpRound N (-1) (by rw [two_zpow_52]; exact hq) (by norm_num)
    (by norm_num; ring) h

theorem intOfFloat_of_nonneg {x : ℚ} (h0 : 0 ≤ x) (h1 : x < 2147483648) :
    intOfFloat x = some ⌊x⌋ := by
  unfold intOfFloat
  simp only [h0, if_true]
  have h2 : 0 ≤ ⌊x⌋ := Int.floor_nonneg.2 h0
  have h3 : ⌊x⌋ < 2147483648 := Int.floor_lt.2 (by exact_mod_cast h1)
  rw [if_pos ⟨by omega, by omega⟩]

theorem intOfFloat_of_neg {x : ℚ} (h0 : x < 0) (h1 : -2147483649 < x) :
    intOfFloat x = some ⌈x⌉ := by
  unfold intOfFloat
  simp only [not_le.2 h0, if_false]
  have h2 : ⌈x⌉ ≤ 0 := Int.ceil_le.2 (by exact_mod_cast le_of_lt h0)
  have h3 : (-2147483649 : Int) < ⌈x⌉ := Int.lt_ceil.2 (by exact_mod_cast h1)
  rw [if_pos ⟨by omega, by omega⟩]

/-- The product `(num - integer_part) * 100` and the sum with `0.5` for a
`float` value truncated upward, as a negative one is: the sum is at most `0.5`. -/
theorem negative_scaled_fraction {num : ℚ} (hf : f32Round num = num) :
    -199 / 2 ≤ f64Add (f32Mul (f32Sub num (f32OfInt ⌈num⌉)) 100) (1 / 2) ∧
      f64Add (f32Mul (f32Sub num (f32OfInt ⌈num⌉)) 100) (1 / 2) ≤ 1 / 2 := by
  have h1 := Int.ceil_lt_add_one num
  have h2 := Int.le_ceil num
  unfold f64Add f32Mul f32Sub f32OfInt
  rw [f32Round_ceil hf]
  have a1 : |num - ⌈num⌉| < 16777216 := by
    rw [abs_lt]
    constructor <;> linarith
  have b1 : (-1 : ℚ) ≤ f32Round (num - ⌈num⌉) := by
    have := int_le_f32Round (-1) a1 (by push_cast; linarith)
    simpa using this
  have b2 : f32Round (num - ⌈num⌉) ≤ 0 := by
    have := f32Round_le_int 0 a1 (by push_cast; linarith)
    simpa using this
  have a2 : |f32Round (num - ⌈num⌉) * 100| < 16777216 := by
    rw [abs_lt]
    constructor <;> linarith
  have c1 : (-100 : ℚ) ≤ f32Round (f32Round (num - ⌈num⌉) * 100) := by
    have := int_le_f32Round (-100) a2 (by push_cast; linarith)
    simpa using this
  have c2 : f32Round (f32Round (num - ⌈num⌉) * 100) ≤ 0 := by
    have := f32Round_le_int 0 a2 (by push_cast; linarith)
    simpa using this
  have a3 : |f32Round (f32Round (num - ⌈num⌉) * 100) + 1 / 2| < 4503599627370496 := by
    rw [abs_lt]
    constructor <;> linarith
  constructor
  · have := half_le_f64Round (-199) a3 (by push_cast; linarith)
    simpa using this
  · have := f64Round_le_half 1 a3 (by push_cast; linarith)
    simpa using this

/-- The initial `decimal_part` computed from the upward truncation, as for a
negative `float` value, is at most 0. -/
theorem decimalPart_of_neg {num : ℚ} (hf : f32Round num = num) :
    ∃ dp : Int, decimalPart num ⌈num⌉ = some dp ∧ -100 ≤ dp ∧ dp ≤ 0 := by
  obtain ⟨h1, h2⟩ := negative_scaled_fraction hf
  unfold decimalPart
  generalize f64Add (f32Mul (f32Sub num (f32OfInt ⌈num⌉)) 100) (1 / 2) = s at h1 h2
  by_cases hs : 0 ≤ s
  · refine ⟨⌊s⌋, intOfFloat_of_nonneg hs (by linarith), ?_, ?_⟩
    · have := Int.floor_nonneg.2 hs
      omega
    · have : ⌊s⌋ < 1 := Int.floor_lt.2 (by push_cast; linarith)
      omega
  · have hs' : s < 0 := not_le.1 hs
    refine ⟨⌈s⌉, intOfFloat_of_neg hs' (by linarith), ?_, ?_⟩
    · have : (-100 : Int) < ⌈s⌉ := Int.lt_ceil.2 (by push_cast; linarith)
      omega
    · exact Int.ceil_le.2 (by exact_mod_cast le_of_lt hs')

theorem float_to_str_parts_of_neg {num : ℚ} (hf : f32Round num = num) (hneg : num < 0)
    (hrange : -2147483649 < num) :
    ∃ dp : Int, decimalPart num ⌈num⌉ = some dp ∧ dp ≤ 0 ∧ ¬ (num < 0 ∧ dp > 0) ∧
      float_to_str_parts num = some (⌈num⌉, dp) := by
  obtain ⟨dp, h1, h2, h3⟩ := decimalPart_of_neg hf
  refine ⟨dp, h1, h3, fun h => by omega, ?_⟩
  unfold float_to_str_parts
  rw [intOfFloat_of_neg hneg hrange]
  simp only [h1]
  rw [if_neg (by omega), if_neg (fun h => by omega)]

/-- Adding `0.5` in `double` and truncating gives the floor of the exact sum,
for a `float` value `P` in `[0, 100]`. -/
theorem floor_f64Add_half (q : ℚ) (h0 : 0 ≤ f32Round q) (h100 : f32Round q ≤ 100) :
    ⌊f64Add (f32Round q) (1 / 2)⌋ = ⌊f32Round q + 1 / 2⌋ := by
  obtain ⟨N, hN, hNle⟩ := fpRound_form 24 (-126) q
  have hj := ulpExp_ge 24 (-126) q
  norm_num at hj
  generalize ulpExp 24 (-126) q = j at hN hj
  change f32Round q = N * 2 ^ j at hN
  generalize f32Round q = P at hN h0 h100
  have hu := two_zpow_pos j
  have hNq : ((|N| : Int) : ℚ) ≤ 16777216 := by exact_mod_cast hNle
  have hPle : P ≤ 16777216 * 2 ^ j := by
    rw [hN]
    apply mul_le_mul_of_nonneg_right _ (le_of_lt hu)
    have : (N : ℚ) ≤ ((|N| : Int) : ℚ) := by exact_mod_cast le_abs_self N
    linarith
  unfold f64Add f64Round
  by_cases hcase : -53 ≤ j
  · -- the sum is a `double` value
    have hexact : fpRound 53 (-1022) (P + 1 / 2) = P + 1 / 2 := by
      by_cases hj1 : -1 ≤ j
      · obtain ⟨M, hM⟩ := multiple_of_le hj1 hN
        apply fpRound_exact (M + 1) (-1)
        · rw [two_zpow_52, abs_of_nonneg (by linarith)]
          linarith
        · norm_num
        · rw [hM]
          push_cast
          norm_num
          ring
      · have hj2 : j < -1 := not_le.1 hj1
        have h1 : ((-1 - j).toNat : Int) = -1 - j := Int.toNat_of_nonneg (by omega)
        have h2 : (1 : ℚ) / 2 = 2 ^ (-1 - j).toNat * 2 ^ j := by
          rw [← zpow_natCast, h1, ← zpow_add₀ (by norm_num)]
          norm_num
        apply fpRound_exact (N + 2 ^ (-1 - j).toNat) j
        · rw [abs_of_nonneg (by linarith)]
          have h3 : (2 : ℚ) ^ (j + ((53 : ℕ) : Int)) = 536870912 * (16777216 * 2 ^ j) := by
            have : j + ((53 : ℕ) : Int) = 53 + j := by push_cast; ring
            rw [this, zpow_add₀ (by norm_num)]
            norm_num
            ring
          have h4 : (1 : ℚ) ≤ 2 ^ (j + ((53 : ℕ) : Int)) := by
            apply one_le_zpow₀ (by norm_num)
            push_cast
            omega
          rw [h3] at h4 ⊢
          nlinarith
        · norm_num
          omega
        · rw [hN, h2]
          push_cast
          ring
    rw [hexact]
  · -- `P` is below `2 ^ (-30)`: both floors are 0
    have hj3 : j ≤ -54 := by omega
    have hsmall : P ≤ 1 / 1073741824 := by
      have h1 : (2 : ℚ) ^ j ≤ 2 ^ (-54 : Int) := zpow_le_zpow_right₀ (by norm_num) hj3
      have h2 : (2 : ℚ) ^ (-54 : Int) = 1 / 18014398509481984 := by norm_num
      rw [h2] at h1
      linarith
    have a3 : |P + 1 / 2| < 4503599627370496 := by
      rw [abs_of_nonneg (by linarith)]
      linarith
    have hlow : (1 : ℚ) / 2 ≤ fpRound 53 (-1022) (P + 1 / 2) := by
      have := half_le_f64Round 1 a3 (by push_cast; linarith)
      unfold f64Round at this
      simpa using this
    have hhigh : fpRound 53 (-1022) (P + 1 / 2) ≤ 3 / 4 := by
      have e : (2 : ℚ) ^ ((-2 : Int) + ((53 : ℕ) : Int)) = 2251799813685248 := by norm_num
      apply fpRound_le 3 (-2)
      · rw [e, abs_of_nonneg (by linarith)]
        linarith
      · norm_num
      · norm_num
      · linarith
    have f1 : ⌊fpRound 53 (-1022) (P + 1 / 2)⌋ = 0 := by
      rw [Int.floor_eq_iff]
      constructor
      · push_cast
        linarith
      · push_cast
        linarith
    have f2 : ⌊P + 1 / 2⌋ = 0 := by
      rw [Int.floor_eq_iff]
      constructor
      · push_cast
        linarith
      · push_cast
        linarith
    rw [f1, f2]

/-! ## Evaluating a rounding -/

theorem roundHalfEven_eq_of_near {x : ℚ} {n : Int} (h : |x - n| < 1 / 2) :
    roundHalfEven x = n := by
  have h1 := abs_le.1 (roundHalfEven_err x)
  have h2 := abs_lt.1 h
  have h3 : ((roundHalfEven x - n : Int) : ℚ) < 1 := by
    push_cast
    linarith [h1.2, h2.1]
  have h4 : ((-1 : Int) : ℚ) < ((roundHalfEven x - n : Int) : ℚ) := by
    push_cast
    linarith [h1.1, h2.2]
  have h5 : roundHalfEven x - n < 1 := by exact_mod_cast h3
  have h6 : -1 < roundHalfEven x - n := by exact_mod_cast h4
  omega

theorem ulpExp_eq {p : Nat} {emin : Int} {q : ℚ} (e : Int) (hq0 : 0 < |q|)
    (h1 : 2 ^ e ≤ |q|) (h2 : |q| < 2 ^ (e + 1)) (hemin : emin ≤ e) :
    ulpExp p emin q = e - ((p : Int) - 1) := by
  unfold ulpExp
  have h1' : ((2 : ℕ) : ℚ) ^ e ≤ |q| := by rw [Nat.cast_ofNat]; exact h1
  have h2' : |q| < ((2 : ℕ) : ℚ) ^ (e + 1) := by rw [Nat.cast_ofNat]; exact h2
  have l1 : e ≤ Int.log 2 |q| := (Int.zpow_le_iff_le_log one_lt_two hq0).1 h1'
  have l2 : Int.log 2 |q| < e + 1 := (Int.lt_zpow_iff_log_lt one_lt_two hq0).1 h2'
  have l3 : Int.log 2 |q| = e := by omega
  rw [l3, max_eq_left hemin]

/-- The rounding of `q` in the binade `[2 ^ e, 2 ^ (e + 1))` is the multiple
`N` of the spacing that is less than half a spacing away. -/
theorem fpRound_eval {p : Nat} {emin : Int} {q : ℚ} (e N : Int) (hq0 : 0 < |q|)
    (h1 : 2 ^ e ≤ |q|) (h2 : |q| < 2 ^ (e + 1)) (hemin : emin ≤ e)
    (hN : |q / 2 ^ (e - ((p : Int) - 1)) - N| < 1 / 2) :
    fpRound p emin q = N * 2 ^ (e - ((p : Int) - 1)) := by
  rw [fpRound_eq, ulpExp_eq e hq0 h1 h2 hemin, roundHalfEven_eq_of_near hN]

theorem f32Round_neg_half : f32Round (-1 / 2) = -1 / 2 := by
  unfold f32Round
  apply fpRound_exact (-1) (-1)
  · norm_num [abs_of_neg]
  · norm_num
  · norm_num

theorem f32Round_neg_fifty : f32Round (-50) = -50 := by
  have h := @f32Round_intCast (-50) (by norm_num)
  simpa using h

theorem f64Round_neg_99_half : f64Round (-99 / 2) = -99 / 2 := by
  unfold f64Round
  apply fpRound_exact (-99) (-1)
  · norm_num [abs_of_neg]
  · norm_num
  · norm_num

theorem float_to_str_parts_neg_half : float_to_str_parts (-1 / 2) = some (0, -49) := by
  have c0 : ⌈(-1 / 2 : ℚ)⌉ = 0 := by
    rw [Int.ceil_eq_iff]
    norm_num
  have c1 : ⌈(-99 / 2 : ℚ)⌉ = -49 := by
    rw [Int.ceil_eq_iff]
    norm_num
  have i0 : intOfFloat (-1 / 2) = some 0 := by
    rw [intOfFloat_of_neg (by norm_num) (by norm_num), c0]
  have z : f32OfInt 0 = 0 := by
    unfold f32OfInt f32Round
    rw [Int.cast_zero]
    exact fpRound_zero 24 (-126)
  have d : decimalPart (-1 / 2) 0 = some (-49) := by
    unfold decimalPart f64Add f32Mul f32Sub
    rw [z, sub_zero, f32Round_neg_half]
    have e1 : (-1 / 2 : ℚ) * 100 = -50 := by norm_num
    rw [e1, f32Round_neg_fifty]
    have e2 : (-50 : ℚ) + 1 / 2 = -99 / 2 := by norm_num
    rw [e2, f64Round_neg_99_half, intOfFloat_of_neg (by norm_num) (by norm_num), c1]
  unfold float_to_str_parts
  rw [i0]
  simp only [d]
  rw [if_neg (by decide), if_neg (fun h => absurd h.2 (by decide))]

theorem float_to_str_neg_half : float_to_str (-1 / 2) = some "0.-49" := by
  unfold float_to_str
  rw [float_to_str_parts_neg_half]
  decide

/-- The float product `(num - integer_part) * 100` of a non-negative `float`
value: the subtraction is exact and the product lies in `[0, 100]`. -/
theorem nonneg_scaled_fraction {num : ℚ} (hf : f32Round num = num) (h0 : 0 ≤ num) :
    f32Mul (f32Sub num (f32OfInt ⌊num⌋)) 100 = f32Round ((num - ⌊num⌋) * 100) ∧
      0 ≤ f32Round ((num - ⌊num⌋) * 100) ∧ f32Round ((num - ⌊num⌋) * 100) ≤ 100 := by
  have h1 := Int.lt_floor_add_one num
  have h2 := Int.floor_le num
  have e : f32Mul (f32Sub num (f32OfInt ⌊num⌋)) 100 = f32Round ((num - ⌊num⌋) * 100) := by
    unfold f32Mul f32Sub f32OfInt
    rw [f32Round_floor hf, f32Round_fract hf h0]
  have a : |(num - ⌊num⌋) * 100| < 16777216 := by
    rw [abs_lt]
    constructor <;> linarith
  refine ⟨e, ?_, ?_⟩
  · have := int_le_f32Round 0 a (by push_cast; linarith)
    simpa using this
  · have := f32Round_le_int 100 a (by push_cast; linarith)
    simpa using this

theorem float_to_str_parts_of_nonneg {num : ℚ} (hf : f32Round num = num) (h0 : 0 ≤ num)
    (hrange : num < 2147483648) :
    ∃ ip dp : Int, float_to_str_parts num = some (ip, dp) ∧ 0 ≤ dp ∧ dp ≤ 99 ∧
      (ip : ℚ) + (dp : ℚ) / 100 =
        roundHalfUp2 (⌊num⌋ + f32Round ((num - ⌊num⌋) * 100) / 100) := by
  obtain ⟨e, p0, p100⟩ := nonneg_scaled_fraction hf h0
  have hfl := floor_f64Add_half ((num - ⌊num⌋) * 100) p0 p100
  have a3 : |f32Round ((num - ⌊num⌋) * 100) + 1 / 2| < 4503599627370496 := by
    rw [abs_of_nonneg (by linarith)]
    linarith
  have s0 : (1 : ℚ) / 2 ≤ f64Add (f32Round ((num - ⌊num⌋) * 100)) (1 / 2) := by
    have := half_le_f64Round 1 a3 (by push_cast; linarith)
    unfold f64Add
    simpa using this
  have s1 : f64Add (f32Round ((num - ⌊num⌋) * 100)) (1 / 2) ≤ 201 / 2 := by
    have := f64Round_le_half 201 a3 (by push_cast; linarith)
    unfold f64Add
    simpa using this
  have d : decimalPart num ⌊num⌋ = some ⌊f32Round ((num - ⌊num⌋) * 100) + 1 / 2⌋ := by
    unfold decimalPart
    rw [e, intOfFloat_of_nonneg (by linarith) (by linarith), hfl]
  have r : roundHalfUp2 (⌊num⌋ + f32Round ((num - ⌊num⌋) * 100) / 100) =
      ((⌊num⌋ * 100 + ⌊f32Round ((num - ⌊num⌋) * 100) + 1 / 2⌋ : Int) : ℚ) / 100 := by
    unfold roundHalfUp2
    have : ((⌊num⌋ : ℚ) + f32Round ((num - ⌊num⌋) * 100) / 100) * 100 + 1 / 2 =
        ((⌊num⌋ * 100 : Int) : ℚ) + (f32Round ((num - ⌊num⌋) * 100) + 1 / 2) := by
      push_cast
      ring
    rw [this, Int.floor_int_add]
  generalize f32Round ((num - ⌊num⌋) * 100) = P at p0 p100 d r
  have k0 : 0 ≤ ⌊P + 1 / 2⌋ := Int.floor_nonneg.2 (by linarith)
  have k1 : ⌊P + 1 / 2⌋ < 101 := Int.floor_lt.2 (by push_cast; linarith)
  unfold float_to_str_parts
  rw [intOfFloat_of_nonneg h0 hrange]
  simp only [d]
  by_cases hc : ⌊P + 1 / 2⌋ ≥ 100
  · rw [if_pos hc]
    refine ⟨_, _, rfl, by omega, by omega, ?_⟩
    rw [r]
    push_cast
    ring
  · rw [if_neg hc, if_neg (fun h => absurd h.1 (not_lt.2 h0))]
    refine ⟨_, _, rfl, k0, by omega, ?_⟩
    rw [r]
    push_cast
    ring

/-- C20 (as amended): in `float_to_str`, for every negative `float` input within
the `int` range the initial `decimal_part` is at most 0, so the borrow branch
guarded by `num < 0 && decimal_part > 0` is never taken and the parts printed
are `trunc(num)` and that non-positive `decimal_part`; only for `num >= 0` does
the printed fraction field lie in `0..99`, and then
`integer_part + decimal_part / 100` is the half-up rounding to two decimals of
`trunc(num) + P / 100`, where `P` is the `float` product
`(num - trunc(num)) * 100` after its rounding to `float`: this is `num`
rounded half-up to two decimals whenever that product is exact.  For
`num = -0.5` the parts are 0 and -49, printed as `0.-49`. -/
theorem float_to_str_spec (num : ℚ) (hf : f32Round num = num)
    (hrange : -2147483649 < num ∧ num < 2147483648) :
    (num < 0 →
        ∃ dp : Int, decimalPart num ⌈num⌉ = some dp ∧ dp ≤ 0 ∧ ¬ (num < 0 ∧ dp > 0) ∧
          float_to_str_parts num = some (⌈num⌉, dp)) ∧
      (0 ≤ num →
        ∃ ip dp : Int, float_to_str_parts num = some (ip, dp) ∧ 0 ≤ dp ∧ dp ≤ 99 ∧
          (ip : ℚ) + (dp : ℚ) / 100 =
            roundHalfUp2 (⌊num⌋ + f32Round ((num - ⌊num⌋) * 100) / 100) ∧
          (f32Round ((num - ⌊num⌋) * 100) = (num - ⌊num⌋) * 100 →
            (ip : ℚ) + (dp : ℚ) / 100 = roundHalfUp2 num)) ∧
      float_to_str_parts (-1 / 2) = some (0, -49) ∧
      float_to_str (-1 / 2) = some "0.-49" := by
  refine ⟨fun hneg => float_to_str_parts_of_neg hf hneg hrange.1, ?_,
    float_to_str_parts_neg_half, float_to_str_neg_half⟩
  intro h0
  obtain ⟨ip, dp, h1, h2, h3, h4⟩ := float_to_str_parts_of_nonneg hf h0 hrange.2
  refine ⟨ip, dp, h1, h2, h3, h4, ?_⟩
  intro hex
  rw [h4, hex]
  congr 1
  ring

theorem float_to_str_spec_witness :
    (f32Round (-1 / 2) = -1 / 2 ∧ (-2147483649 : ℚ) < -1 / 2 ∧ (-1 / 2 : ℚ) < 2147483648) ∧
      float_to_str_parts (-1 / 2) = some (0, -49) :=
  ⟨⟨f32Round_neg_half, by norm_num, by norm_num⟩,
    (float_to_str_spec (-1 / 2) f32Round_neg_half ⟨by norm_num, by norm_num⟩).2.2.1⟩

theorem f32Round_example : f32Round (13673431 / 16777216) = 13673431 / 16777216 := by
  unfold f32Round
  apply fpRound_exact 13673431 (-24)
  · norm_num [abs_of_pos]
  · norm_num
  · norm_num

theorem f32Round_example_scaled : f32Round (13673431 / 16777216 * 100) = 163 / 2 := by
  unfold f32Round
  have h := @fpRound_eval 24 (-126) (13673431 / 16777216 * 100) 6 10682368
    (by norm_num) (by norm_num [abs_of_pos]) (by norm_num [abs_of_pos]) (by norm_num)
    (by norm_num [abs_lt])
  rw [h]
  norm_num

theorem f64Round_82 : f64Round 82 = 82 := by
  unfold f64Round
  apply fpRound_exact 82 0
  · norm_num
  · norm_num
  · norm_num

theorem float_to_str_parts_example :
    float_to_str_parts (13673431 / 16777216) = some (0, 82) := by
  have c0 : ⌊(13673431 / 16777216 : ℚ)⌋ = 0 := by
    rw [Int.floor_eq_iff]
    norm_num
  have c1 : ⌊(82 : ℚ)⌋ = 82 := by
    rw [Int.floor_eq_iff]
    norm_num
  have i0 : intOfFloat (13673431 / 16777216) = some 0 := by
    rw [intOfFloat_of_nonneg (by norm_num) (by norm_num), c0]
  have z : f32OfInt 0 = 0 := by
    unfold f32OfInt f32Round
    rw [Int.cast_zero]
    exact fpRound_zero 24 (-126)
  have d : decimalPart (13673431 / 16777216) 0 = some 82 := by
    unfold decimalPart f64Add f32Mul f32Sub
    rw [z, sub_zero, f32Round_example, f32Round_example_scaled]
    have e2 : (163 : ℚ) / 2 + 1 / 2 = 82 := by norm_num
    rw [e2, f64Round_82, intOfFloat_of_nonneg (by norm_num) (by norm_num), c1]
  unfold float_to_str_parts
  rw [i0]
  simp only [d]
  rw [if_neg (by decide), if_neg (fun h => absurd h.1 (by norm_num))]

/-- C20 (as stated) fails for a non-negative input: the `float` value
`13673431 / 2^24 = 0.81499999761...` is printed as `0.82`, because the `float`
product with 100 rounds `81.49999976...` up to `81.5`, whereas the value rounded
half-up to two decimals is `0.81`. -/
theorem float_to_str_not_half_up :
    f32Round (13673431 / 16777216) = 13673431 / 16777216 ∧
      (0 : ℚ) ≤ 13673431 / 16777216 ∧ (13673431 / 16777216 : ℚ) < 2147483648 ∧
      float_to_str_parts (13673431 / 16777216) = some (0, 82) ∧
      float_to_str (13673431 / 16777216) = some "0.82" ∧
      roundHalfUp2 (13673431 / 16777216) = 81 / 100 ∧
      ((0 : Int) : ℚ) + ((82 : Int) : ℚ) / 100 ≠ roundHalfUp2 (13673431 / 16777216) := by
  have r : roundHalfUp2 (13673431 / 16777216) = 81 / 100 := by
    unfold roundHalfUp2
    have : ⌊(13673431 / 16777216 : ℚ) * 100 + 1 / 2⌋ = 81 := by
      rw [Int.floor_eq_iff]
      norm_num
    rw [this]
    norm_num
  refine ⟨f32Round_example, by norm_num, by norm_num, float_to_str_parts_example, ?_, r, ?_⟩
  · unfold float_to_str
    rw [float_to_str_parts_example]
    decide
  · rw [r]
    norm_num

end GXHTC3
